import Mathlib

/-!
Verification of the SDS+ scoring engine (`src/lib/sds-plus.ts`) and the cache
freshness policy (`src/lib/cache.ts`) of the party-ponies-website repository.

JavaScript numbers are modelled by `JSN`: an exact real number, or one of the
IEEE-754 special values `NaN`, `+Infinity`, `-Infinity`.  Finite floats are
idealized as exact reals; the special values are produced, exactly as in
JavaScript, by division by zero, and propagate through arithmetic.
Sub-computations of the engine whose divisions are all syntactically guarded
by positivity tests in the source (all-play win percentage, opponent APW,
expected playoff wins, standard deviations, the consistency index) provably
never produce special values, and are embedded directly in `ℚ` or `ℝ`.
-/

/-- Idealized JavaScript number: an exact real, or NaN, or plus or minus
Infinity. -/
inductive JSN where
  | num (x : ℝ)
  | nan
  | inf
  | ninf

namespace JSN

/-- JavaScript addition on idealized numbers. -/
def add : JSN → JSN → JSN
  | nan, _ => nan
  | _, nan => nan
  | num x, num y => num (x + y)
  | num _, inf => inf
  | num _, ninf => ninf
  | inf, num _ => inf
  | ninf, num _ => ninf
  | inf, inf => inf
  | inf, ninf => nan
  | ninf, inf => nan
  | ninf, ninf => ninf

/-- JavaScript subtraction on idealized numbers. -/
def sub : JSN → JSN → JSN
  | nan, _ => nan
  | _, nan => nan
  | num x, num y => num (x - y)
  | num _, inf => ninf
  | num _, ninf => inf
  | inf, num _ => inf
  | ninf, num _ => ninf
  | inf, inf => nan
  | inf, ninf => inf
  | ninf, inf => ninf
  | ninf, ninf => nan

open Classical in
/-- JavaScript multiplication on idealized numbers (`0 * Infinity = NaN`). -/
noncomputable def mul : JSN → JSN → JSN
  | nan, _ => nan
  | _, nan => nan
  | num x, num y => num (x * y)
  | num x, inf => if x = 0 then nan else if 0 < x then inf else ninf
  | num x, ninf => if x = 0 then nan else if 0 < x then ninf else inf
  | inf, num y => if y = 0 then nan else if 0 < y then inf else ninf
  | ninf, num y => if y = 0 then nan else if 0 < y then ninf else inf
  | inf, inf => inf
  | inf, ninf => ninf
  | ninf, inf => ninf
  | ninf, ninf => inf

open Classical in
/-- JavaScript division on idealized numbers: division by (positive) zero
yields NaN for a zero dividend and a signed infinity otherwise. -/
noncomputable def div : JSN → JSN → JSN
  | nan, _ => nan
  | _, nan => nan
  | num x, num y =>
      if y = 0 then (if x = 0 then nan else if 0 < x then inf else ninf)
      else num (x / y)
  | num _, inf => num 0
  | num _, ninf => num 0
  | inf, num y => if 0 ≤ y then inf else ninf
  | ninf, num y => if 0 ≤ y then ninf else inf
  | inf, inf => nan
  | inf, ninf => nan
  | ninf, inf => nan
  | ninf, ninf => nan

open Classical in
/-- JavaScript strict `<` comparison: any comparison with NaN is false. -/
noncomputable def ltB : JSN → JSN → Bool
  | nan, _ => false
  | _, nan => false
  | num x, num y => decide (x < y)
  | num _, inf => true
  | num _, ninf => false
  | inf, num _ => false
  | ninf, num _ => true
  | inf, inf => false
  | inf, ninf => false
  | ninf, inf => true
  | ninf, ninf => false

open Classical in
/-- JavaScript `>=` comparison: any comparison with NaN is false. -/
noncomputable def geB : JSN → JSN → Bool
  | nan, _ => false
  | _, nan => false
  | num x, num y => decide (y ≤ x)
  | num _, inf => false
  | num _, ninf => true
  | inf, num _ => true
  | ninf, num _ => false
  | inf, inf => true
  | inf, ninf => true
  | ninf, inf => false
  | ninf, ninf => true

/-- JavaScript `Math.round`: round half toward positive infinity; NaN and the
infinities are fixed points. -/
noncomputable def round : JSN → JSN
  | num x => num (⌊x + 1 / 2⌋ : ℤ)
  | nan => nan
  | inf => inf
  | ninf => ninf

@[simp] theorem add_num_num (x y : ℝ) : add (num x) (num y) = num (x + y) := rfl

@[simp] theorem sub_num_num (x y : ℝ) : sub (num x) (num y) = num (x - y) := rfl

@[simp] theorem mul_num_num (x y : ℝ) : mul (num x) (num y) = num (x * y) := rfl

@[simp] theorem round_num (x : ℝ) : round (num x) = num (⌊x + 1 / 2⌋ : ℤ) := rfl

theorem div_num_num_of_ne {y : ℝ} (x : ℝ) (h : y ≠ 0) :
    div (num x) (num y) = num (x / y) := by
  simp [div, h]

theorem div_num_zero_of_pos {x : ℝ} (h : 0 < x) : div (num x) (num 0) = inf := by
  simp [div, h, ne_of_gt h]

theorem div_zero_zero : div (num 0) (num 0) = nan := by simp [div]

@[simp] theorem ltB_num_num (x y : ℝ) : ltB (num x) (num y) = decide (x < y) := rfl

@[simp] theorem geB_num_num (x y : ℝ) : geB (num x) (num y) = decide (y ≤ x) := rfl

@[simp] theorem sub_num_inf (x : ℝ) : sub (num x) inf = ninf := rfl

@[simp] theorem sub_inf_num (x : ℝ) : sub inf (num x) = inf := rfl

@[simp] theorem sub_inf_inf : sub inf inf = nan := rfl

@[simp] theorem ltB_num_nan (a : JSN) : ltB a nan = false := by cases a <;> rfl

@[simp] theorem ltB_nan (a : JSN) : ltB nan a = false := by cases a <;> rfl

@[simp] theorem ltB_num_inf (x : ℝ) : ltB (num x) inf = true := rfl

@[simp] theorem ltB_num_ninf (x : ℝ) : ltB (num x) ninf = false := rfl

@[simp] theorem geB_nan (a : JSN) : geB nan a = false := by cases a <;> rfl

@[simp] theorem geB_num_nan (a : JSN) : geB a nan = false := by cases a <;> rfl

@[simp] theorem geB_inf_num (x : ℝ) : geB inf (num x) = true := rfl

@[simp] theorem round_nan : round nan = nan := rfl

@[simp] theorem round_inf : round inf = inf := rfl

@[simp] theorem mul_nan (a : JSN) : mul nan a = nan := by cases a <;> rfl

@[simp] theorem mul_nan_right (a : JSN) : mul a nan = nan := by cases a <;> rfl

@[simp] theorem add_nan (a : JSN) : add nan a = nan := by cases a <;> rfl

@[simp] theorem add_nan_right (a : JSN) : add a nan = nan := by cases a <;> rfl

@[simp] theorem div_nan (a : JSN) : div nan a = nan := by cases a <;> rfl

@[simp] theorem div_nan_right (a : JSN) : div a nan = nan := by cases a <;> rfl

theorem mul_num_inf_of_pos {x : ℝ} (h : 0 < x) : mul (num x) inf = inf := by
  simp [mul, h, ne_of_gt h]

theorem mul_inf_num_of_pos {y : ℝ} (h : 0 < y) : mul inf (num y) = inf := by
  simp [mul, h, ne_of_gt h]

theorem div_inf_num_of_nonneg {y : ℝ} (h : 0 ≤ y) : div inf (num y) = inf := by
  simp [div, h]

theorem div_num_inf (x : ℝ) : div (num x) inf = num 0 := rfl

end JSN

/-- One team's season standings record (`YahooStanding` in
`src/lib/yahoo-api.ts`).  Per the data model, `rank`, `wins`, `losses`,
`ties` are non-negative integers and the point totals are finite floats,
idealized as rationals. -/
structure YahooStanding where
  team_key : String
  name : String
  owner_name : Option String
  rank : ℕ
  points_for : ℚ
  points_against : ℚ
  wins : ℕ
  losses : ℕ
  ties : ℕ
deriving DecidableEq, Repr

/-- One team's score in one week (`WeeklyScore` in `src/lib/sds-plus.ts`). -/
structure WeeklyScore where
  team_key : String
  week : ℕ
  points : ℚ
  opponent_key : Option String
deriving DecidableEq, Repr

/-- The `breakdown` sub-object of an SDS+ output entry.  Fields whose
computation is guarded against division by zero in the source are typed in
`ℚ`/`ℝ`; the others can carry special values and are typed `JSN`. -/
structure SDSBreakdown where
  pfIndexEra : JSN
  allPlayWinPct : ℚ
  regularSeasonScore : JSN
  weeklyCeilingRate : JSN
  strengthOfSchedule : ℚ
  consistencyIndex : ℝ
  postseasonBonus : ℚ
  playoffLuckDiff : ℚ

/-- One SDS+ output entry (`SDSPlusScore` in `src/lib/sds-plus.ts`). -/
structure SDSPlusScore where
  owner : String
  team_key : String
  score : JSN
  breakdown : SDSBreakdown
  rank : ℕ
  finalRank : ℕ
  interpretation : String

/-- Insert or overwrite a key in a JavaScript `Map`, modelled as an
association list in key-insertion order. -/
def jsMapSet {κ α : Type} [BEq κ] (m : List (κ × α)) (k : κ) (v : α) :
    List (κ × α) :=
  if m.any (fun p => p.1 == k) then
    m.map (fun p => if p.1 == k then (k, v) else p)
  else m ++ [(k, v)]

/-- Lookup in a JavaScript `Map` modelled as an association list. -/
def jsMapGet {κ α : Type} [BEq κ] (m : List (κ × α)) (k : κ) : Option α :=
  (m.find? (fun p => p.1 == k)).map (fun p => p.2)

/-- The week-indexed score table built in `calculateAllPlayWinPercentage`
(`scoresByWeek`, lines 56-62): a map from week to a map from team key to
points, later entries overwriting earlier ones. -/
def scoresByWeekStep (acc : List (ℕ × List (String × ℚ))) (ws : WeeklyScore) :
    List (ℕ × List (String × ℚ)) :=
  jsMapSet acc ws.week (jsMapSet ((jsMapGet acc ws.week).getD []) ws.team_key ws.points)

def scoresByWeek (weeklyScores : List WeeklyScore) :
    List (ℕ × List (String × ℚ)) :=
  weeklyScores.foldl scoresByWeekStep []

/-- One iteration of the inner opponent loop of
`calculateAllPlayWinPercentage` (lines 70-78): the (wins, matchups)
contribution of comparing the team's score with one opponent key; a missing
opponent score is coerced to 0 by `weekScores.get(opponentKey) || 0`. -/
def allPlayStep (weekScores : List (String × ℚ)) (teamKey : String)
    (teamScore : ℚ) (opponentKey : String) : ℕ × ℕ :=
  if opponentKey == teamKey then (0, 0)
  else
    let opponentScore := (jsMapGet weekScores opponentKey).getD 0
    (if opponentScore < teamScore then 1 else 0, 1)

/-- The (wins, matchups) contribution of one of the team's weeks in
`calculateAllPlayWinPercentage` (lines 65-79); a week absent from the score
table is skipped. -/
def allPlayWeek (sbw : List (ℕ × List (String × ℚ))) (allTeamKeys : List String)
    (teamKey : String) (teamWeek : WeeklyScore) : ℕ × ℕ :=
  match jsMapGet sbw teamWeek.week with
  | none => (0, 0)
  | some weekScores =>
      (allTeamKeys.map (allPlayStep weekScores teamKey teamWeek.points)).foldl
        (fun a b => (a.1 + b.1, a.2 + b.2)) ((0, 0) : ℕ × ℕ)

/-- `calculateAllPlayWinPercentage` (lines 44-82): the fraction of simulated
weekly matchups won against every other team, 0.5 when the team has no
weekly data or no matchups. -/
def calculateAllPlayWinPercentage (teamKey : String)
    (weeklyScores : List WeeklyScore) (allTeamKeys : List String) : ℚ :=
  let teamWeeks := weeklyScores.filter (fun w => w.team_key == teamKey)
  if teamWeeks.isEmpty then 1 / 2
  else
    let sbw := scoresByWeek weeklyScores
    let totals := (teamWeeks.map (allPlayWeek sbw allTeamKeys teamKey)).foldl
      (fun a b => (a.1 + b.1, a.2 + b.2)) ((0, 0) : ℕ × ℕ)
    if 0 < totals.2 then (totals.1 : ℚ) / (totals.2 : ℚ) else 1 / 2

/-- `calculateTeamStdDev` (lines 87-97): population standard deviation of the
team's weekly scores, 0 without data.  Both divisions are guarded by the
nonempty filter, so the value is a genuine real. -/
noncomputable def calculateTeamStdDev (teamKey : String)
    (weeklyScores : List WeeklyScore) : ℝ :=
  let teamScores := (weeklyScores.filter (fun w => w.team_key == teamKey)).map
    (fun w => w.points)
  if teamScores.isEmpty then 0
  else
    let mean : ℚ := teamScores.sum / (teamScores.length : ℚ)
    let variance : ℚ :=
      (teamScores.map (fun s => (s - mean) ^ 2)).sum / (teamScores.length : ℚ)
    Real.sqrt (variance : ℝ)

/-- League-average all-play win percentage, the fallback used twice in
`calculateOpponentAPW` (lines 113-117 and 143-147). -/
def leagueAvgAPW (allPlayWinPcts : List (String × ℚ)) : ℚ :=
  let allAPWs := allPlayWinPcts.map (fun p => p.2)
  if 0 < allAPWs.length then allAPWs.sum / (allAPWs.length : ℚ) else 1 / 2

/-- Insertion-ordered deduplicated list, modelling a JavaScript `Set` built
by repeated `add`. -/
def jsSetAdd (s : List String) (k : String) : List String :=
  if s.contains k then s else s ++ [k]

/-- `calculateOpponentAPW` (lines 103-148): average all-play win percentage
of the distinct opponents actually faced, with league-average fallbacks.
JavaScript truthiness of `ws.opponent_key` excludes both a missing and an
empty opponent key. -/
def calculateOpponentAPW (teamKey : String) (weeklyScores : List WeeklyScore)
    (allTeamKeys : List String) (allPlayWinPcts : List (String × ℚ)) : ℚ :=
  let teamWeeklyScores := weeklyScores.filter
    (fun w => w.team_key == teamKey && !(w.opponent_key.getD "" == ""))
  if teamWeeklyScores.isEmpty then leagueAvgAPW allPlayWinPcts
  else
    let opponentKeys := teamWeeklyScores.foldl
      (fun s w =>
        if w.opponent_key.getD "" == "" then s else jsSetAdd s (w.opponent_key.getD ""))
      []
    let opponentAPWs := opponentKeys.filterMap (fun k => jsMapGet allPlayWinPcts k)
    if 0 < opponentAPWs.length then opponentAPWs.sum / (opponentAPWs.length : ℚ)
    else leagueAvgAPW allPlayWinPcts

/-- `calculateExpectedPlayoffWins` (lines 154-167). -/
def calculateExpectedPlayoffWins (regularSeasonRank : ℕ) (allPlayWinPct : ℚ)
    (numPlayoffTeams : ℕ := 6) : ℚ :=
  if regularSeasonRank ≤ 2 then 1.5 + allPlayWinPct * 0.5
  else if regularSeasonRank ≤ 4 then 1 + allPlayWinPct * 0.5
  else 0.5 + allPlayWinPct * 0.5

/-- `calculateActualPlayoffWins` (lines 172-177). -/
def calculateActualPlayoffWins (finalRank : ℕ) : ℕ :=
  if finalRank = 1 then 2
  else if finalRank = 2 then 1
  else if finalRank = 3 then 1
  else 0

/-- Games played by a team, `team.wins + team.losses + team.ties`
(lines 231 and 263). -/
def gamesPlayed (team : YahooStanding) : ℕ := team.wins + team.losses + team.ties

/-- League average of `points_for` (line 212): a JavaScript division, NaN for
an empty standings list. -/
noncomputable def leagueAvgPoints (standings : List YahooStanding) : JSN :=
  JSN.div (JSN.num (((standings.map (fun t => t.points_for)).sum : ℚ) : ℝ))
    (JSN.num (standings.length : ℝ))

/-- Comparator of the points-descending sort (line 215): `a` may come before
`b` when the JS comparator value `b.points_for - a.points_for` is not
positive. -/
def ptsLe (a b : YahooStanding) : Bool := decide (b.points_for ≤ a.points_for)

/-- Line 215: `[...standings].sort((a, b) => b.points_for - a.points_for)`.
`Array.prototype.sort` is stable (ECMA-262), hence `mergeSort`. -/
def sortedByPoints (standings : List YahooStanding) : List YahooStanding :=
  standings.mergeSort ptsLe

/-- The `allPlayWinPcts` map (lines 218-237): computed from weekly data when
present, otherwise estimated as `min(0.95, winPct * 1.1)` from the win
percentage, defaulting to a 0.5 win percentage with zero games played. -/
def allPlayWinPcts (standings : List YahooStanding)
    (weeklyScores : List WeeklyScore) : List (String × ℚ) :=
  let allTeamKeys := standings.map (fun t => t.team_key)
  if 0 < weeklyScores.length then
    allTeamKeys.foldl
      (fun m k => jsMapSet m k (calculateAllPlayWinPercentage k weeklyScores allTeamKeys))
      []
  else
    allTeamKeys.foldl
      (fun m k =>
        match standings.find? (fun t => t.team_key == k) with
        | none => m
        | some team =>
            let winPct : ℚ :=
              if 0 < gamesPlayed team then (team.wins : ℚ) / (gamesPlayed team : ℚ)
              else 1 / 2
            jsMapSet m k (min 0.95 (winPct * 1.1)))
      []

open Classical in
/-- League average of the positive team standard deviations (lines 241-253);
0 without weekly data. -/
noncomputable def leagueAvgStdDev (standings : List YahooStanding)
    (weeklyScores : List WeeklyScore) : ℝ :=
  if 0 < weeklyScores.length then
    let teamStdDevs := ((standings.map (fun t => t.team_key)).map
      (fun k => calculateTeamStdDev k weeklyScores)).filter (fun s => decide (0 < s))
    if 0 < teamStdDevs.length then teamStdDevs.sum / (teamStdDevs.length : ℝ) else 0
  else 0

/-- Comparator of the regular-season sort (lines 256-259): wins descending,
then points descending. -/
def regSeasonLe (a b : YahooStanding) : Bool :=
  if a.wins = b.wins then decide (b.points_for ≤ a.points_for)
  else decide (b.wins < a.wins)

/-- Lines 256-259: the regular-season-only ranking order. -/
def sortedByRegularSeason (standings : List YahooStanding) : List YahooStanding :=
  standings.mergeSort regSeasonLe

/-- A team's 1-based position in a sorted list, located by `findIndex` on
`team_key`; the JS `findIndex` returns -1, hence position 0, when absent. -/
def rankIn (l : List YahooStanding) (key : String) : ℕ :=
  match l.findIdx? (fun t => t.team_key == key) with
  | some i => i + 1
  | none => 0

/-- Line 266: position in the regular-season ranking. -/
def regularSeasonRank (standings : List YahooStanding) (team : YahooStanding) : ℕ :=
  rankIn (sortedByRegularSeason standings) team.team_key

/-- Line 272: position in the points-descending ranking. -/
def pointsRank (standings : List YahooStanding) (team : YahooStanding) : ℕ :=
  rankIn (sortedByPoints standings) team.team_key

/-- Line 269: points index `PFI = points_for / leagueAvgPoints`. -/
noncomputable def PFI (standings : List YahooStanding) (team : YahooStanding) : JSN :=
  JSN.div (JSN.num (team.points_for : ℝ)) (leagueAvgPoints standings)

/-- Line 273: `PF_pct = 1 - (pointsRank - 1) / (N - 1)`; with one team this
divides zero by zero. -/
noncomputable def PF_pct (standings : List YahooStanding) (team : YahooStanding) : JSN :=
  JSN.sub (JSN.num 1)
    (JSN.div (JSN.num ((pointsRank standings team : ℝ) - 1))
      (JSN.num ((standings.length : ℝ) - 1)))

/-- Line 276: era-adjusted points `PFI_era = 0.5 * PFI + 0.5 * PF_pct`. -/
noncomputable def PFI_era (standings : List YahooStanding) (team : YahooStanding) : JSN :=
  JSN.add (JSN.mul (JSN.num 0.5) (PFI standings team))
    (JSN.mul (JSN.num 0.5) (PF_pct standings team))

/-- Line 279: `RSS = 1 - (regularSeasonRank - 1) / (N - 1)`. -/
noncomputable def RSS (standings : List YahooStanding) (team : YahooStanding) : JSN :=
  JSN.sub (JSN.num 1)
    (JSN.div (JSN.num ((regularSeasonRank standings team : ℝ) - 1))
      (JSN.num ((standings.length : ℝ) - 1)))

/-- Line 282: `allPlayWinPcts.get(team.team_key) || 0.5`; JavaScript's `||`
also replaces a stored 0 by 0.5. -/
def APW (standings : List YahooStanding) (weeklyScores : List WeeklyScore)
    (team : YahooStanding) : ℚ :=
  match jsMapGet (allPlayWinPcts standings weeklyScores) team.team_key with
  | some v => if v = 0 then 1 / 2 else v
  | none => 1 / 2

/-- Largest element of a rational list (`Math.max(...scores)`), only applied
to nonempty lists in the engine. -/
def listMax : List ℚ → ℚ
  | [] => 0
  | x :: xs => xs.foldl max x

/-- Line 288: the team's weekly score values. -/
def teamWeeklyPoints (weeklyScores : List WeeklyScore) (team : YahooStanding) : List ℚ :=
  (weeklyScores.filter (fun w => w.team_key == team.team_key)).map (fun w => w.points)

/-- Lines 289-291: highest weekly score, estimated as
`(points_for / gamesPlayed) * 1.5` without weekly data — an unguarded
JavaScript division. -/
noncomputable def weeklyHigh (weeklyScores : List WeeklyScore)
    (team : YahooStanding) : JSN :=
  let ts := teamWeeklyPoints weeklyScores team
  if 0 < ts.length then JSN.num ((listMax ts : ℚ) : ℝ)
  else
    JSN.mul (JSN.div (JSN.num (team.points_for : ℝ)) (JSN.num (gamesPlayed team : ℝ)))
      (JSN.num 1.5)

/-- Lines 294-296: average weekly score, estimated as
`leagueAvgPoints / regularSeasonWeeks` without weekly data. -/
noncomputable def leagueAvgWeeklyScore (standings : List YahooStanding)
    (weeklyScores : List WeeklyScore) (regularSeasonWeeks : ℚ) : JSN :=
  if 0 < weeklyScores.length ∧ 0 < standings.length then
    JSN.num ((((weeklyScores.map (fun w => w.points)).sum / (weeklyScores.length : ℚ) : ℚ)) : ℝ)
  else JSN.div (leagueAvgPoints standings) (JSN.num (regularSeasonWeeks : ℝ))

/-- Line 299: `WCR = leagueAvgWeeklyScore > 0 ? weeklyHigh / leagueAvgWeeklyScore : 1.0`. -/
noncomputable def WCR (standings : List YahooStanding) (weeklyScores : List WeeklyScore)
    (regularSeasonWeeks : ℚ) (team : YahooStanding) : JSN :=
  let laws := leagueAvgWeeklyScore standings weeklyScores regularSeasonWeeks
  if JSN.ltB (JSN.num 0) laws then JSN.div (weeklyHigh weeklyScores team) laws
  else JSN.num 1

/-- Lines 303-304: `SoS = 1 + (APW_opp - 0.50)`. -/
def SoS (standings : List YahooStanding) (weeklyScores : List WeeklyScore)
    (team : YahooStanding) : ℚ :=
  1 + (calculateOpponentAPW team.team_key weeklyScores (standings.map (fun t => t.team_key))
    (allPlayWinPcts standings weeklyScores) - 0.5)

open Classical in
/-- Lines 313-321: consistency index, `1 - teamStdDev / leagueAvgStdDev`
clamped to [-1, 1], and 0 whenever weekly data or positive deviations are
missing.  The division is guarded by `leagueAvgStdDev > 0`. -/
noncomputable def CI (standings : List YahooStanding) (weeklyScores : List WeeklyScore)
    (team : YahooStanding) : ℝ :=
  if 0 < weeklyScores.length ∧ 0 < leagueAvgStdDev standings weeklyScores then
    if 0 < calculateTeamStdDev team.team_key weeklyScores ∧
        0 < leagueAvgStdDev standings weeklyScores then
      max (-1) (min 1
        (1 - calculateTeamStdDev team.team_key weeklyScores / leagueAvgStdDev standings weeklyScores))
    else 0
  else 0

/-- Lines 324-328: postseason bonus from the final rank. -/
def PSB (team : YahooStanding) : ℚ :=
  if team.rank = 1 then 1
  else if team.rank = 2 then 0.7
  else if team.rank = 3 then 0.45
  else 0

/-- Line 332: expected playoff wins from the regular-season rank and APW. -/
def EPW (standings : List YahooStanding) (weeklyScores : List WeeklyScore)
    (team : YahooStanding) : ℚ :=
  calculateExpectedPlayoffWins (regularSeasonRank standings team)
    (APW standings weeklyScores team)

/-- Line 334: luck differential `LD = EPW - actual playoff wins`. -/
def LD (standings : List YahooStanding) (weeklyScores : List WeeklyScore)
    (team : YahooStanding) : ℚ :=
  EPW standings weeklyScores team - (calculateActualPlayoffWins team.rank : ℚ)

/-- Line 337: adjusted postseason bonus `PSB + 0.05 * LD`. -/
def PSB_adj (standings : List YahooStanding) (weeklyScores : List WeeklyScore)
    (team : YahooStanding) : ℚ :=
  PSB team + 0.05 * LD standings weeklyScores team

/-- Line 342: the composite base score
`(0.30 * PFI_era + 0.25 * APW + 0.15 * RSS + 0.10 * WCR) * SoS + 0.20 * PSB_adj`. -/
noncomputable def baseScore (standings : List YahooStanding)
    (weeklyScores : List WeeklyScore) (regularSeasonWeeks : ℚ)
    (team : YahooStanding) : JSN :=
  JSN.add
    (JSN.mul
      (JSN.add
        (JSN.add
          (JSN.add (JSN.mul (JSN.num 0.3) (PFI_era standings team))
            (JSN.num ((0.25 * APW standings weeklyScores team : ℚ) : ℝ)))
          (JSN.mul (JSN.num 0.15) (RSS standings team)))
        (JSN.mul (JSN.num 0.1) (WCR standings weeklyScores regularSeasonWeeks team)))
      (JSN.num ((SoS standings weeklyScores team : ℚ) : ℝ)))
    (JSN.num ((0.2 * PSB_adj standings weeklyScores team : ℚ) : ℝ))

/-- Line 347: champions get a 1.15 multiplier. -/
def championMultiplier (team : YahooStanding) : ℚ :=
  if team.rank = 1 then 1.15 else 1

/-- Line 349: the unrounded composite score
`100 * baseScore * (1 + 0.05 * CI) * championMultiplier`. -/
noncomputable def sdsPlusRaw (standings : List YahooStanding)
    (weeklyScores : List WeeklyScore) (regularSeasonWeeks : ℚ)
    (team : YahooStanding) : JSN :=
  JSN.mul
    (JSN.mul (JSN.mul (JSN.num 100) (baseScore standings weeklyScores regularSeasonWeeks team))
      (JSN.num (1 + 0.05 * CI standings weeklyScores team)))
    (JSN.num ((championMultiplier team : ℚ) : ℝ))

/-- Lines 352-357: interpretation tier, selected from the unrounded score;
every comparison with NaN is false, so NaN falls to the final tier. -/
noncomputable def interpretationOf (s : JSN) : String :=
  if JSN.geB s (JSN.num 95) then "All-time, era-defining season"
  else if JSN.geB s (JSN.num 85) then "Dominant, likely robbed by variance"
  else if JSN.geB s (JSN.num 75) then "Elite champion or contender"
  else if JSN.geB s (JSN.num 65) then "Solid title or strong season"
  else "Average or luck-driven outcome"

/-- `Math.round(x * d) / d`, the output rounding idiom, on idealized JS
numbers. -/
noncomputable def jsRoundTo (d : ℝ) (x : JSN) : JSN :=
  JSN.div (JSN.round (JSN.mul x (JSN.num d))) (JSN.num d)

/-- `Math.round(x * d) / d` on rationals. -/
def qRoundTo (d : ℚ) (x : ℚ) : ℚ := ((⌊x * d + 1 / 2⌋ : ℤ) : ℚ) / d

/-- `Math.round(x * d) / d` on reals. -/
noncomputable def rRoundTo (d : ℝ) (x : ℝ) : ℝ := ((⌊x * d + 1 / 2⌋ : ℤ) : ℝ) / d

/-- Line 360: `team.owner_name || team.name` (an empty string is falsy). -/
def ownerOf (team : YahooStanding) : String :=
  match team.owner_name with
  | some s => if s = "" then team.name else s
  | none => team.name

/-- The per-team output entry built by the `standings.map` callback of
`calculateSDSPlus` (lines 261-376), before the final sort assigns `rank`
(the callback itself sets `rank: 0`). -/
noncomputable def sdsEntry (standings : List YahooStanding)
    (weeklyScores : List WeeklyScore) (regularSeasonWeeks : ℚ)
    (team : YahooStanding) : SDSPlusScore :=
  { owner := ownerOf team
    team_key := team.team_key
    score := jsRoundTo 10 (sdsPlusRaw standings weeklyScores regularSeasonWeeks team)
    breakdown :=
      { pfIndexEra := jsRoundTo 100 (PFI_era standings team)
        allPlayWinPct := qRoundTo 1000 (APW standings weeklyScores team)
        regularSeasonScore := jsRoundTo 100 (RSS standings team)
        weeklyCeilingRate := jsRoundTo 100 (WCR standings weeklyScores regularSeasonWeeks team)
        strengthOfSchedule := qRoundTo 100 (SoS standings weeklyScores team)
        consistencyIndex := rRoundTo 100 (CI standings weeklyScores team)
        postseasonBonus := qRoundTo 100 (PSB_adj standings weeklyScores team)
        playoffLuckDiff := qRoundTo 100 (LD standings weeklyScores team) }
    rank := 0
    finalRank := team.rank
    interpretation := interpretationOf (sdsPlusRaw standings weeklyScores regularSeasonWeeks team) }

/-- Comparator of the final score-descending sort (line 377): entry `a` may
come before entry `b` when the JS comparator value `b.score - a.score` is
not positive (per ECMA-262 a NaN comparator value is treated as 0, a tie). -/
noncomputable def scoreLe (a b : SDSPlusScore) : Bool :=
  !(JSN.ltB (JSN.num 0) (JSN.sub b.score a.score))

/-- Lines 378-381: assign dense rank `index + 1` down the sorted list. -/
def assignRanksFrom (i : ℕ) : List SDSPlusScore → List SDSPlusScore
  | [] => []
  | s :: rest => { s with rank := i + 1 } :: assignRanksFrom (i + 1) rest

/-- `calculateSDSPlus` (lines 204-382): build one entry per team, sort by
score descending with the stable `Array.prototype.sort`, and assign dense
ranks 1..N. -/
noncomputable def calculateSDSPlus (standings : List YahooStanding)
    (weeklyScores : List WeeklyScore := []) (regularSeasonWeeks : ℚ := 14) :
    List SDSPlusScore :=
  assignRanksFrom 0
    ((standings.map (sdsEntry standings weeklyScores regularSeasonWeeks)).mergeSort scoreLe)

/-- Current-season TTL in hours (`CURRENT_SEASON_WEEKLY_TTL_HOURS`,
`src/lib/cache.ts` line 26). -/
def CURRENT_SEASON_WEEKLY_TTL_HOURS : ℚ := 168

/-- `isCacheFresh` (`src/lib/cache.ts` lines 37-54).  Timestamps are rational
epoch milliseconds; the wall clock read inside the function (`new Date()`)
is passed explicitly as `now`.  The optional `isCompletedWeek` parameter is
an `Option Bool`, absent (`none`) at most call sites, and compared with
`=== true`. -/
def isCacheFresh (cachedAt : ℚ) (now : ℚ) (isCurrentSeason : Bool)
    (isCompletedWeek : Option Bool := none) : Bool :=
  if !isCurrentSeason then true
  else if isCompletedWeek == some true then true
  else decide ((now - cachedAt) / (1000 * 60 * 60) < CURRENT_SEASON_WEEKLY_TTL_HOURS)

/-- One row of the `league_standings` cache table as read by
`getCachedStandings`; `owner_name` is `none` when the column is absent or
NULL. -/
structure StandingsRow where
  created_at : ℚ
  team_key : String
  team_name : String
  owner_name : Option String
  rank : ℕ
  wins : ℕ
  losses : ℕ
  ties : ℕ
  points_for : ℚ
  points_against : ℚ
deriving DecidableEq, Repr

/-- The fold computing the oldest `created_at` of the fetched rows
(`src/lib/cache.ts` lines 77-80). -/
def oldestCache (rows : List StandingsRow) : Option ℚ :=
  rows.foldl
    (fun oldest row =>
      match oldest with
      | none => some row.created_at
      | some o => if row.created_at < o then some row.created_at else some o)
    none

/-- Missing-field test of one cached row (`src/lib/cache.ts` lines 88-92):
`owner_name` is `undefined`, NULL or the empty string. -/
def rowMissingOwnerName (row : StandingsRow) : Bool :=
  match row.owner_name with
  | none => true
  | some s => s == ""

/-- Decision core of `getCachedStandings` (`src/lib/cache.ts` lines 59-116)
after the database query: given the fetched rows, whether the season is
current, and the wall-clock time, return the standings or `none` when the
cache is unusable.  The Supabase query, error handling and `parseFloat`
deserialization of exactly stored numerics are external I/O. -/
def getCachedStandingsCore (rows : List StandingsRow) (isCurrentSeason : Bool)
    (now : ℚ) : Option (List YahooStanding) :=
  if rows.isEmpty then none
  else
    let stale :=
      match oldestCache rows with
      | some o => !isCacheFresh o now isCurrentSeason
      | none => false
    if stale then none
    else if rows.any rowMissingOwnerName then none
    else
      some (rows.map (fun row =>
        { team_key := row.team_key
          name := row.team_name
          owner_name := some
            (match row.owner_name with
             | some s => if s = "" then row.team_name else s
             | none => row.team_name)
          rank := row.rank
          wins := row.wins
          losses := row.losses
          ties := row.ties
          points_for := row.points_for
          points_against := row.points_against }))

section StructuralLemmas

theorem length_assignRanksFrom (i : ℕ) (l : List SDSPlusScore) :
    (assignRanksFrom i l).length = l.length := by
  induction l generalizing i with
  | nil => rfl
  | cons s rest ih => simp [assignRanksFrom, ih]

theorem mem_assignRanksFrom {e : SDSPlusScore} {i : ℕ} {l : List SDSPlusScore}
    (h : e ∈ assignRanksFrom i l) :
    ∃ e' ∈ l, e = { e' with rank := e.rank } := by
  induction l generalizing i with
  | nil => simp [assignRanksFrom] at h
  | cons s rest ih =>
      simp only [assignRanksFrom, List.mem_cons] at h
      rcases h with h | h
      · exact ⟨s, List.mem_cons_self s rest, by simp [h]⟩
      · obtain ⟨e', he', hee⟩ := ih h
        exact ⟨e', List.mem_cons_of_mem s he', hee⟩

theorem getElem_assignRanksFrom (i : ℕ) (l : List SDSPlusScore) (j : ℕ)
    (hj : j < (assignRanksFrom i l).length) (hj' : j < l.length) :
    (assignRanksFrom i l)[j] = { l[j] with rank := i + j + 1 } := by
  induction l generalizing i j with
  | nil => simp at hj'
  | cons s rest ih =>
      cases j with
      | zero => simp [assignRanksFrom]
      | succ j =>
          have hj2 : j < (assignRanksFrom (i + 1) rest).length := by
            simpa [assignRanksFrom, length_assignRanksFrom] using hj
          have hj2' : j < rest.length := by simpa using hj'
          simp only [assignRanksFrom, List.getElem_cons_succ]
          rw [ih (i + 1) j hj2 hj2']
          have h3 : i + 1 + j + 1 = i + (j + 1) + 1 := by omega
          rw [h3]

end StructuralLemmas

/-- C5: with an empty standings list, `calculateSDSPlus` returns the empty
list (and in particular does not throw), for every weekly-score list and
week count. -/
theorem C5_empty_standings_returns_empty :
    ∀ (weeklyScores : List WeeklyScore) (regularSeasonWeeks : ℚ),
      calculateSDSPlus [] weeklyScores regularSeasonWeeks = [] := by
  intro ws weeks
  simp [calculateSDSPlus, assignRanksFrom]

/-- C7: `isCacheFresh` implements the three-rule policy exactly and in
order: a non-current season is always fresh; otherwise a completed week is
always fresh; otherwise freshness holds iff the age is strictly below the
168-hour TTL.  In particular a cache entry 8 days old is stale and one
1 hour old is fresh. -/
theorem C7_cache_freshness_policy :
    (∀ (cachedAt now : ℚ) (isCurrentSeason : Bool) (isCompletedWeek : Option Bool),
      isCacheFresh cachedAt now isCurrentSeason isCompletedWeek =
        (!isCurrentSeason || isCompletedWeek == some true ||
          decide ((now - cachedAt) / (1000 * 60 * 60) < 168))) ∧
    (∀ now : ℚ,
      isCacheFresh (now - 8 * 24 * 60 * 60 * 1000) now true none = false) ∧
    (∀ now : ℚ,
      isCacheFresh (now - 60 * 60 * 1000) now true none = true) := by
  refine ⟨fun cachedAt now isCurrentSeason isCompletedWeek => ?_, fun now => ?_, fun now => ?_⟩
  · cases isCurrentSeason <;>
      cases isCompletedWeek with
      | none => simp [isCacheFresh, CURRENT_SEASON_WEEKLY_TTL_HOURS]
      | some b => cases b <;> simp [isCacheFresh, CURRENT_SEASON_WEEKLY_TTL_HOURS]
  · simp only [isCacheFresh, CURRENT_SEASON_WEEKLY_TTL_HOURS]
    norm_num
  · simp only [isCacheFresh, CURRENT_SEASON_WEEKLY_TTL_HOURS]
    norm_num

/-- C6: with `weeklyScores = []` the engine never throws (it is a total
function) and every returned entry's `breakdown.consistencyIndex` is
exactly 0. -/
theorem C6_no_weekly_data_gives_zero_consistency
    (standings : List YahooStanding) (regularSeasonWeeks : ℚ)
    (hne : standings ≠ []) :
    ∀ e ∈ calculateSDSPlus standings [] regularSeasonWeeks,
      e.breakdown.consistencyIndex = 0 := by
  intro e he
  unfold calculateSDSPlus at he
  obtain ⟨e', he', heq⟩ := mem_assignRanksFrom he
  rw [List.mem_mergeSort, List.mem_map] at he'
  obtain ⟨t, _, rfl⟩ := he'
  have hb : e.breakdown = (sdsEntry standings [] regularSeasonWeeks t).breakdown := by
    rw [heq]
  rw [hb]
  have hci : CI standings [] t = 0 := by simp [CI]
  simp only [sdsEntry, hci, rRoundTo]
  norm_num [Int.floor_eq_iff]

/-- C6 witness: a concrete one-team standings list. -/
theorem C6_no_weekly_data_gives_zero_consistency_witness :
    ([(⟨"a", "A", none, 1, 100, 90, 5, 5, 0⟩ : YahooStanding)] ≠ []) ∧
    (∀ e ∈ calculateSDSPlus [⟨"a", "A", none, 1, 100, 90, 5, 5, 0⟩] [] 14,
      e.breakdown.consistencyIndex = 0) :=
  ⟨by simp,
   C6_no_weekly_data_gives_zero_consistency
     [⟨"a", "A", none, 1, 100, 90, 5, 5, 0⟩] 14 (by simp)⟩

/-- C8: if any fetched row of a cached standings set has a missing, NULL or
empty `owner_name`, `getCachedStandings` returns `null` regardless of the
cache age, forcing recomputation. -/
theorem C8_missing_owner_name_invalidates (rows : List StandingsRow)
    (isCurrentSeason : Bool) (now : ℚ)
    (h : ∃ row ∈ rows, row.owner_name = none ∨ row.owner_name = some "") :
    getCachedStandingsCore rows isCurrentSeason now = none := by
  obtain ⟨row, hrow, hbad⟩ := h
  have hne : rows ≠ [] := by rintro rfl; simp at hrow
  have hany : rows.any rowMissingOwnerName = true := by
    rw [List.any_eq_true]
    refine ⟨row, hrow, ?_⟩
    rcases hbad with h | h <;> simp [rowMissingOwnerName, h]
  simp [getCachedStandingsCore, List.isEmpty_iff, hne, hany]

/-- C8 witness: a single cached row with a NULL owner name, freshly cached. -/
theorem C8_missing_owner_name_invalidates_witness :
    (∃ row ∈ [(⟨0, "t", "T", none, 1, 0, 0, 0, 0, 0⟩ : StandingsRow)],
      row.owner_name = none ∨ row.owner_name = some "") ∧
    getCachedStandingsCore [⟨0, "t", "T", none, 1, 0, 0, 0, 0, 0⟩] true 0 = none :=
  ⟨⟨⟨0, "t", "T", none, 1, 0, 0, 0, 0, 0⟩, by simp, Or.inl rfl⟩,
   C8_missing_owner_name_invalidates [⟨0, "t", "T", none, 1, 0, 0, 0, 0, 0⟩] true 0
     ⟨⟨0, "t", "T", none, 1, 0, 0, 0, 0, 0⟩, by simp, Or.inl rfl⟩⟩

section JsMapLemmas

variable {κ α : Type} [BEq κ] [LawfulBEq κ]

omit [LawfulBEq κ] in
theorem jsMapGet_nil (k : κ) : jsMapGet ([] : List (κ × α)) k = none := rfl

omit [LawfulBEq κ] in
theorem jsMapGet_cons (p : κ × α) (m : List (κ × α)) (k : κ) :
    jsMapGet (p :: m) k = if p.1 == k then some p.2 else jsMapGet m k := by
  cases hp : p.1 == k <;> simp [jsMapGet, List.find?_cons, hp]

theorem jsMapGet_map_overwrite (m : List (κ × α)) (k k' : κ) (v : α)
    (h : (k == k') = false) :
    jsMapGet (m.map (fun q => if q.1 == k then (k, v) else q)) k' = jsMapGet m k' := by
  induction m with
  | nil => rfl
  | cons p m ih =>
      by_cases hp : (p.1 == k) = true
      · have hp' : (p.1 == k') = false := by rw [eq_of_beq hp]; exact h
        simp [jsMapGet_cons, hp, hp', h, ih]
      · rw [Bool.not_eq_true] at hp
        cases hq : p.1 == k' <;> simp [jsMapGet_cons, hp, hq, ih]

theorem jsMapGet_map_overwrite_self (m : List (κ × α)) (k : κ) (v : α)
    (hm : m.any (fun p => p.1 == k) = true) :
    jsMapGet (m.map (fun q => if q.1 == k then (k, v) else q)) k = some v := by
  induction m with
  | nil => simp at hm
  | cons p m ih =>
      by_cases hp : (p.1 == k) = true
      · simp [jsMapGet_cons, hp]
      · rw [Bool.not_eq_true] at hp
        rw [List.any_cons, hp, Bool.false_or] at hm
        simp [jsMapGet_cons, hp, ih hm]

theorem jsMapGet_append_single_ne (m : List (κ × α)) (k k' : κ) (v : α)
    (h : (k == k') = false) :
    jsMapGet (m ++ [(k, v)]) k' = jsMapGet m k' := by
  induction m with
  | nil => simp [jsMapGet, List.find?, h]
  | cons p m ih => cases hq : p.1 == k' <;> simp [jsMapGet_cons, hq, ih]

theorem jsMapGet_append_single_self (m : List (κ × α)) (k : κ) (v : α)
    (hm : m.any (fun p => p.1 == k) = false) :
    jsMapGet (m ++ [(k, v)]) k = some v := by
  induction m with
  | nil => simp [jsMapGet, List.find?]
  | cons p m ih =>
      rw [List.any_cons] at hm
      have hp : (p.1 == k) = false := by
        cases hpk : p.1 == k
        · rfl
        · rw [hpk] at hm; simp at hm
      rw [hp, Bool.false_or] at hm
      simp [jsMapGet_cons, hp, ih hm]

theorem jsMapGet_jsMapSet_self (m : List (κ × α)) (k : κ) (v : α) :
    jsMapGet (jsMapSet m k v) k = some v := by
  unfold jsMapSet
  cases hm : m.any (fun p => p.1 == k) with
  | true =>
      simp only [if_true]
      exact jsMapGet_map_overwrite_self m k v hm
  | false =>
      simp only [Bool.false_eq_true, if_false]
      exact jsMapGet_append_single_self m k v hm

theorem jsMapGet_jsMapSet_ne (m : List (κ × α)) (k k' : κ) (v : α)
    (h : k' ≠ k) :
    jsMapGet (jsMapSet m k v) k' = jsMapGet m k' := by
  have hkk : (k == k') = false := by
    rw [beq_eq_false_iff_ne]
    exact fun he => h he.symm
  unfold jsMapSet
  cases hm : m.any (fun p => p.1 == k) with
  | true =>
      simp only [if_true]
      exact jsMapGet_map_overwrite m k k' v hkk
  | false =>
      simp only [Bool.false_eq_true, if_false]
      exact jsMapGet_append_single_ne m k k' v hkk

theorem jsMapGet_jsMapSet_isSome (m : List (κ × α)) (k k' : κ) (v : α)
    (h : (jsMapGet m k').isSome) :
    (jsMapGet (jsMapSet m k v) k').isSome := by
  by_cases hk : k' = k
  · subst hk; rw [jsMapGet_jsMapSet_self]; rfl
  · rwa [jsMapGet_jsMapSet_ne m k k' v hk]

end JsMapLemmas

section ScoresByWeekLemmas

theorem foldl_scoresByWeekStep_isSome (ws : List WeeklyScore)
    (acc : List (ℕ × List (String × ℚ))) (w : ℕ)
    (h : (jsMapGet acc w).isSome) :
    (jsMapGet (ws.foldl scoresByWeekStep acc) w).isSome := by
  induction ws generalizing acc with
  | nil => simpa using h
  | cons e rest ih =>
      rw [List.foldl_cons]
      exact ih _ (jsMapGet_jsMapSet_isSome _ _ _ _ h)

theorem scoresByWeek_week_present (ws : List WeeklyScore) (e : WeeklyScore)
    (he : e ∈ ws) : (jsMapGet (scoresByWeek ws) e.week).isSome := by
  unfold scoresByWeek
  suffices H : ∀ acc : List (ℕ × List (String × ℚ)), e ∈ ws →
      (jsMapGet (ws.foldl scoresByWeekStep acc) e.week).isSome by
    exact H [] he
  clear he
  induction ws with
  | nil => intro acc h; simp at h
  | cons e' rest ih =>
      intro acc h
      rw [List.foldl_cons]
      rcases List.mem_cons.mp h with h | h
      · subst h
        exact foldl_scoresByWeekStep_isSome rest _ e.week
          (by rw [scoresByWeekStep, jsMapGet_jsMapSet_self]; rfl)
      · exact ih _ h

theorem scoresByWeek_absent (ws : List WeeklyScore) (w : ℕ) (o : String)
    (h : ∀ e ∈ ws, e.week = w → e.team_key ≠ o) :
    ∀ inner, jsMapGet (scoresByWeek ws) w = some inner →
      jsMapGet inner o = none := by
  unfold scoresByWeek
  suffices H : ∀ acc : List (ℕ × List (String × ℚ)),
      (∀ inner, jsMapGet acc w = some inner → jsMapGet inner o = none) →
      (∀ e ∈ ws, e.week = w → e.team_key ≠ o) →
      ∀ inner, jsMapGet (ws.foldl scoresByWeekStep acc) w = some inner →
        jsMapGet inner o = none by
    refine H [] (fun inner h' => ?_) h
    rw [jsMapGet_nil] at h'
    exact absurd h' (by simp)
  clear h
  induction ws with
  | nil => intro acc hacc _ inner hi; exact hacc inner hi
  | cons e rest ih =>
      intro acc hacc hws inner hi
      rw [List.foldl_cons] at hi
      refine ih _ ?_ (fun e' he' => hws e' (List.mem_cons_of_mem e he')) inner hi
      intro inner' hi'
      by_cases hw : e.week = w
      · rw [scoresByWeekStep, hw, jsMapGet_jsMapSet_self] at hi'
        cases hi'
        have hto : e.team_key ≠ o := hws e (List.mem_cons_self e rest) hw
        rw [jsMapGet_jsMapSet_ne _ _ _ _ (fun hh => hto hh.symm)]
        cases hg : jsMapGet acc w with
        | none => simp [hg, jsMapGet_nil]
        | some i => simpa [hg] using hacc i hg
      · rw [scoresByWeekStep, jsMapGet_jsMapSet_ne _ _ _ _ (fun hh => hw hh.symm)] at hi'
        exact hacc inner' hi'

end ScoresByWeekLemmas

/-- C9: in the all-play computation, when a compared opponent has no
recorded score for a week, the missing score is coerced to 0 and the
matchup is still counted, so a team with positive points that week is
credited a full simulated win against each absent opponent.  The final
conjunct shows the resulting inflation concretely: a league of three team
keys with a single weekly record gives that team an all-play win
percentage of 1. -/
theorem C9_missing_opponent_score_counts_as_win
    (ws : List WeeklyScore) (e : WeeklyScore) (t o : String)
    (he : e ∈ ws) (ht : e.team_key = t) (hp : 0 < e.points) (hot : o ≠ t)
    (hmissing : ∀ e' ∈ ws, e'.week = e.week → e'.team_key ≠ o) :
    (∃ weekScores, jsMapGet (scoresByWeek ws) e.week = some weekScores ∧
      jsMapGet weekScores o = none ∧
      allPlayStep weekScores t e.points o = (1, 1)) ∧
    calculateAllPlayWinPercentage "A" [⟨"A", 1, 10, none⟩] ["A", "B", "C"] = 1 := by
  constructor
  · obtain ⟨weekScores, hws⟩ := Option.isSome_iff_exists.mp (scoresByWeek_week_present ws e he)
    have hnone := scoresByWeek_absent ws e.week o hmissing weekScores hws
    refine ⟨weekScores, hws, hnone, ?_⟩
    have hbeq : (o == t) = false := by rwa [beq_eq_false_iff_ne]
    simp [allPlayStep, hbeq, hnone, hp]
  · simp +decide only [calculateAllPlayWinPercentage, scoresByWeek, scoresByWeekStep,
      jsMapSet, jsMapGet, allPlayWeek, allPlayStep, List.filter, List.find?,
      List.foldl, List.map, List.any, List.isEmpty]
    simp +decide

/-- C9 witness: a two-record league where team B has no record in week 1. -/
theorem C9_missing_opponent_score_counts_as_win_witness :
    ((⟨"A", 1, 10, none⟩ : WeeklyScore) ∈
        [(⟨"A", 1, 10, none⟩ : WeeklyScore), ⟨"B", 2, 5, none⟩] ∧
      (⟨"A", 1, 10, none⟩ : WeeklyScore).team_key = "A" ∧
      (0 : ℚ) < (⟨"A", 1, 10, none⟩ : WeeklyScore).points ∧
      "B" ≠ "A" ∧
      (∀ e' ∈ [(⟨"A", 1, 10, none⟩ : WeeklyScore), ⟨"B", 2, 5, none⟩],
        e'.week = (⟨"A", 1, 10, none⟩ : WeeklyScore).week → e'.team_key ≠ "B")) ∧
    ((∃ weekScores,
        jsMapGet (scoresByWeek [(⟨"A", 1, 10, none⟩ : WeeklyScore), ⟨"B", 2, 5, none⟩])
          (⟨"A", 1, 10, none⟩ : WeeklyScore).week = some weekScores ∧
        jsMapGet weekScores "B" = none ∧
        allPlayStep weekScores "A" (⟨"A", 1, 10, none⟩ : WeeklyScore).points "B" = (1, 1)) ∧
      calculateAllPlayWinPercentage "A" [⟨"A", 1, 10, none⟩] ["A", "B", "C"] = 1) :=
  ⟨⟨by simp, rfl, by norm_num, by decide, by decide⟩,
   C9_missing_opponent_score_counts_as_win
     [⟨"A", 1, 10, none⟩, ⟨"B", 2, 5, none⟩] ⟨"A", 1, 10, none⟩ "A" "B"
     (by simp) rfl (by norm_num) (by decide) (by decide)⟩

namespace JSN

@[simp] theorem sub_nan (a : JSN) : sub nan a = nan := by cases a <;> rfl

@[simp] theorem sub_nan_right (a : JSN) : sub a nan = nan := by cases a <;> rfl

@[simp] theorem add_inf_num (x : ℝ) : add inf (num x) = inf := rfl

@[simp] theorem add_num_inf (x : ℝ) : add (num x) inf = inf := rfl

@[simp] theorem div_inf_inf : div inf inf = nan := rfl

@[simp] theorem round_ninf : round ninf = ninf := rfl

end JSN

theorem mergeSort_pair {α : Type} (le : α → α → Bool) (a b : α) :
    [a, b].mergeSort le = if le a b then [a, b] else [b, a] := by
  rw [List.mergeSort]
  simp only [List.splitInTwo_fst, List.splitInTwo_snd, List.length_cons,
    List.length_nil]
  norm_num
  rw [List.cons_merge_cons]
  cases h : le a b <;> simp [h, List.merge, List.nil_merge, List.merge_right]

theorem assignRanksFrom_mem_of_mem {x : SDSPlusScore} {l : List SDSPlusScore}
    {i : ℕ} (h : x ∈ l) :
    ∃ e ∈ assignRanksFrom i l, e = { x with rank := e.rank } := by
  induction l generalizing i with
  | nil => simp at h
  | cons s rest ih =>
      rcases List.mem_cons.mp h with h | h
      · subst h
        exact ⟨{ x with rank := i + 1 }, List.mem_cons_self _ _, rfl⟩
      · obtain ⟨e, he, hee⟩ := ih (i := i + 1) h
        exact ⟨e, List.mem_cons_of_mem _ he, hee⟩

/-- Failing input for the single-team season edge case: one team, rank 1,
one win, 100 points. -/
def soloTeam : YahooStanding := ⟨"a", "A", some "Owner", 1, 100, 90, 1, 0, 0⟩

/-- C3 (code evaluation at the failing input): with a single-team standings
list the engine divides zero by zero in the rank-percentile terms
`PF_pct` and `RSS`, so the single returned entry carries NaN in
`pfIndexEra`, `regularSeasonScore` and `score` instead of the claimed
defined N = 1 fallback (the call still does not throw: the engine is a
total function). -/
theorem C3_single_team_produces_nan :
    (calculateSDSPlus [soloTeam] [] 14).map
      (fun e => (e.breakdown.pfIndexEra, e.breakdown.regularSeasonScore, e.score)) =
      [(JSN.nan, JSN.nan, JSN.nan)] := by
  have hpr : pointsRank [soloTeam] soloTeam = 1 := by
    simp +decide [pointsRank, sortedByPoints, List.mergeSort_singleton, rankIn,
      List.findIdx?_cons, List.findIdx?_nil, soloTeam]
  have hrs : regularSeasonRank [soloTeam] soloTeam = 1 := by
    simp +decide [regularSeasonRank, sortedByRegularSeason, List.mergeSort_singleton,
      rankIn, List.findIdx?_cons, List.findIdx?_nil, soloTeam]
  have hpf : PF_pct [soloTeam] soloTeam = JSN.nan := by
    rw [PF_pct, hpr]
    norm_num [JSN.div_zero_zero]
  have hrss : RSS [soloTeam] soloTeam = JSN.nan := by
    rw [RSS, hrs]
    norm_num [JSN.div_zero_zero]
  have hera : PFI_era [soloTeam] soloTeam = JSN.nan := by
    simp [PFI_era, hpf]
  have hbase : baseScore [soloTeam] [] 14 soloTeam = JSN.nan := by
    simp [baseScore, hera]
  have hraw : sdsPlusRaw [soloTeam] [] 14 soloTeam = JSN.nan := by
    simp [sdsPlusRaw, hbase]
  simp only [calculateSDSPlus, List.map_cons, List.map_nil,
    List.mergeSort_singleton, assignRanksFrom, List.map]
  simp [sdsEntry, jsRoundTo, hera, hrss, hraw]

/-- Failing input for the zero-games-played edge case: team `a` has
`wins = losses = ties = 0` but positive points. -/
def zeroGamesTeam : YahooStanding := ⟨"a", "A", none, 1, 100, 0, 0, 0, 0⟩

/-- Companion team with five games played. -/
def fiveGamesTeam : YahooStanding := ⟨"b", "B", none, 2, 50, 0, 2, 3, 0⟩

/-- C4 (code evaluation at the failing input): with empty weekly scores and
zero games played, the weekly-high estimate `(points_for / gamesPlayed) * 1.5`
divides by zero, and `Infinity` reaches both `breakdown.weeklyCeilingRate`
and the returned `score`, contradicting the claim that no NaN or Infinity
ever appears in the output. -/
theorem C4_zero_games_played_produces_infinity :
    ∃ e ∈ calculateSDSPlus [zeroGamesTeam, fiveGamesTeam] [] 14,
      e.team_key = "a" ∧ e.breakdown.weeklyCeilingRate = JSN.inf ∧
      e.score = JSN.inf := by
  have hwh : weeklyHigh [] zeroGamesTeam = JSN.inf := by
    rw [weeklyHigh]
    norm_num [teamWeeklyPoints, zeroGamesTeam, gamesPlayed,
      JSN.div_num_zero_of_pos, JSN.mul_inf_num_of_pos]
  have hlap : leagueAvgPoints [zeroGamesTeam, fiveGamesTeam] = JSN.num 75 := by
    rw [leagueAvgPoints]
    norm_num [zeroGamesTeam, fiveGamesTeam, JSN.div_num_num_of_ne]
  have hlaws : leagueAvgWeeklyScore [zeroGamesTeam, fiveGamesTeam] [] 14 =
      JSN.num (75 / 14) := by
    rw [leagueAvgWeeklyScore]
    norm_num [hlap, JSN.div_num_num_of_ne]
  have hwcr : WCR [zeroGamesTeam, fiveGamesTeam] [] 14 zeroGamesTeam = JSN.inf := by
    rw [WCR, hlaws, hwh]
    norm_num [JSN.div_inf_num_of_nonneg]
  have hpr : pointsRank [zeroGamesTeam, fiveGamesTeam] zeroGamesTeam = 1 := by
    simp +decide [pointsRank, sortedByPoints, mergeSort_pair, ptsLe, rankIn,
      List.findIdx?_cons, List.findIdx?_nil, zeroGamesTeam, fiveGamesTeam]
  have hrs : regularSeasonRank [zeroGamesTeam, fiveGamesTeam] zeroGamesTeam = 2 := by
    simp +decide [regularSeasonRank, sortedByRegularSeason, mergeSort_pair,
      regSeasonLe, rankIn, List.findIdx?_cons, List.findIdx?_nil,
      zeroGamesTeam, fiveGamesTeam]
  have hPFI : PFI [zeroGamesTeam, fiveGamesTeam] zeroGamesTeam = JSN.num (4 / 3) := by
    rw [PFI, hlap]
    rw [JSN.div_num_num_of_ne _ (by norm_num)]
    norm_num [zeroGamesTeam]
  have hpfp : PF_pct [zeroGamesTeam, fiveGamesTeam] zeroGamesTeam = JSN.num 1 := by
    rw [PF_pct, hpr]
    rw [show ((1 : ℕ) : ℝ) - 1 = 0 by norm_num,
      show (([zeroGamesTeam, fiveGamesTeam].length : ℝ)) - 1 = 1 by norm_num]
    rw [JSN.div_num_num_of_ne _ (by norm_num)]
    norm_num
  have hera : PFI_era [zeroGamesTeam, fiveGamesTeam] zeroGamesTeam =
      JSN.num (7 / 6) := by
    rw [PFI_era, hPFI, hpfp]
    norm_num
  have hrss : RSS [zeroGamesTeam, fiveGamesTeam] zeroGamesTeam = JSN.num 0 := by
    rw [RSS, hrs]
    rw [show ((2 : ℕ) : ℝ) - 1 = 1 by norm_num,
      show (([zeroGamesTeam, fiveGamesTeam].length : ℝ)) - 1 = 1 by norm_num]
    rw [JSN.div_num_num_of_ne _ (by norm_num)]
    norm_num
  have hsos : SoS [zeroGamesTeam, fiveGamesTeam] [] zeroGamesTeam = 199 / 200 := by
    simp +decide [SoS, calculateOpponentAPW, leagueAvgAPW, allPlayWinPcts,
      jsMapSet, jsMapGet, gamesPlayed, zeroGamesTeam, fiveGamesTeam,
      List.find?_cons_of_pos, List.find?_cons_of_neg, min_def]
    norm_num
  have hci : CI [zeroGamesTeam, fiveGamesTeam] [] zeroGamesTeam = 0 := by
    simp [CI]
  have hbase : baseScore [zeroGamesTeam, fiveGamesTeam] [] 14 zeroGamesTeam =
      JSN.inf := by
    rw [baseScore, hera, hrss, hwcr, hsos]
    rw [JSN.mul_num_inf_of_pos (by norm_num)]
    norm_num
    rw [JSN.mul_inf_num_of_pos (by norm_num)]
    rfl
  have hraw : sdsPlusRaw [zeroGamesTeam, fiveGamesTeam] [] 14 zeroGamesTeam =
      JSN.inf := by
    rw [sdsPlusRaw, hbase, hci]
    rw [JSN.mul_num_inf_of_pos (by norm_num)]
    rw [JSN.mul_inf_num_of_pos (by norm_num)]
    rw [JSN.mul_inf_num_of_pos (by norm_num [championMultiplier, zeroGamesTeam])]
  have hmem : sdsEntry [zeroGamesTeam, fiveGamesTeam] [] 14 zeroGamesTeam ∈
      (([zeroGamesTeam, fiveGamesTeam].map
        (sdsEntry [zeroGamesTeam, fiveGamesTeam] [] 14)).mergeSort scoreLe) := by
    rw [List.mem_mergeSort]
    exact List.mem_map_of_mem _ (List.mem_cons_self _ _)
  obtain ⟨e, he, hee⟩ := assignRanksFrom_mem_of_mem (i := 0) hmem
  refine ⟨e, he, ?_, ?_, ?_⟩
  · rw [hee]; rfl
  · rw [hee]
    show (sdsEntry [zeroGamesTeam, fiveGamesTeam] [] 14
      zeroGamesTeam).breakdown.weeklyCeilingRate = JSN.inf
    simp only [sdsEntry, jsRoundTo, hwcr]
    rw [JSN.mul_inf_num_of_pos (by norm_num), JSN.round_inf,
      JSN.div_inf_num_of_nonneg (by norm_num)]
  · rw [hee]
    show (sdsEntry [zeroGamesTeam, fiveGamesTeam] [] 14 zeroGamesTeam).score = JSN.inf
    simp only [sdsEntry, jsRoundTo, hraw]
    rw [JSN.mul_inf_num_of_pos (by norm_num), JSN.round_inf,
      JSN.div_inf_num_of_nonneg (by norm_num)]

/-- C10 input: a champion whose unrounded composite score is
94.97506725, which rounds to the displayed 95.0. -/
def champX : YahooStanding := ⟨"x", "X", none, 1, 5105, 0, 3, 7, 0⟩

/-- C10 companion runner-up. -/
def runnerY : YahooStanding := ⟨"y", "Y", none, 2, 4895, 0, 8, 2, 0⟩

/-- C10: the interpretation tier is selected from the unrounded composite
score before the final rounding, so the returned interpretation can
disagree with the tier of the rounded output: here the displayed score is
exactly 95.0 yet the interpretation is the below-95 tier. -/
theorem C10_interpretation_uses_unrounded_score :
    ∃ e ∈ calculateSDSPlus [champX, runnerY] [] 12,
      e.team_key = "x" ∧ e.score = JSN.num 95 ∧
      e.interpretation = "Dominant, likely robbed by variance" := by
  have hlap : leagueAvgPoints [champX, runnerY] = JSN.num 5000 := by
    rw [leagueAvgPoints]
    norm_num [champX, runnerY, JSN.div_num_num_of_ne]
  have hpr : pointsRank [champX, runnerY] champX = 1 := by
    simp +decide [pointsRank, sortedByPoints, mergeSort_pair, ptsLe, rankIn,
      List.findIdx?_cons, List.findIdx?_nil, champX, runnerY]
  have hrs : regularSeasonRank [champX, runnerY] champX = 2 := by
    simp +decide [regularSeasonRank, sortedByRegularSeason, mergeSort_pair,
      regSeasonLe, rankIn, List.findIdx?_cons, List.findIdx?_nil, champX, runnerY]
  have hPFI : PFI [champX, runnerY] champX = JSN.num (1021 / 1000) := by
    rw [PFI, hlap]
    rw [JSN.div_num_num_of_ne _ (by norm_num)]
    norm_num [champX]
  have hpfp : PF_pct [champX, runnerY] champX = JSN.num 1 := by
    rw [PF_pct, hpr]
    rw [show ((1 : ℕ) : ℝ) - 1 = 0 by norm_num,
      show (([champX, runnerY].length : ℝ)) - 1 = 1 by norm_num]
    rw [JSN.div_num_num_of_ne _ (by norm_num)]
    norm_num
  have hera : PFI_era [champX, runnerY] champX = JSN.num (2021 / 2000) := by
    rw [PFI_era, hPFI, hpfp]
    norm_num
  have hrss : RSS [champX, runnerY] champX = JSN.num 0 := by
    rw [RSS, hrs]
    rw [show ((2 : ℕ) : ℝ) - 1 = 1 by norm_num,
      show (([champX, runnerY].length : ℝ)) - 1 = 1 by norm_num]
    rw [JSN.div_num_num_of_ne _ (by norm_num)]
    norm_num
  have hmap : allPlayWinPcts [champX, runnerY] [] =
      [("x", 33 / 100), ("y", 22 / 25)] := by
    simp +decide [allPlayWinPcts, jsMapSet, jsMapGet, gamesPlayed, champX, runnerY,
      List.find?_cons_of_pos, List.find?_cons_of_neg, min_def]
    norm_num
  have hapw : APW [champX, runnerY] [] champX = 33 / 100 := by
    rw [APW, hmap]
    simp +decide [jsMapGet, champX]
  have hsos : SoS [champX, runnerY] [] champX = 221 / 200 := by
    rw [SoS, hmap]
    simp +decide [calculateOpponentAPW, leagueAvgAPW, champX]
    norm_num
  have hwh : weeklyHigh [] champX = JSN.num (3063 / 4) := by
    rw [weeklyHigh]
    simp only [teamWeeklyPoints, List.filter_nil, List.map_nil, List.length_nil,
      lt_irrefl, if_false]
    rw [show (gamesPlayed champX : ℝ) = 10 by norm_num [gamesPlayed, champX]]
    rw [JSN.div_num_num_of_ne _ (by norm_num)]
    norm_num [champX]
  have hlaws : leagueAvgWeeklyScore [champX, runnerY] [] 12 =
      JSN.num (1250 / 3) := by
    rw [leagueAvgWeeklyScore]
    norm_num [hlap, JSN.div_num_num_of_ne]
  have hwcr : WCR [champX, runnerY] [] 12 champX = JSN.num (9189 / 5000) := by
    rw [WCR, hlaws, hwh]
    rw [if_pos (by norm_num)]
    rw [JSN.div_num_num_of_ne _ (by norm_num)]
    norm_num
  have hci : CI [champX, runnerY] [] champX = 0 := by simp [CI]
  have hpsb : PSB_adj [champX, runnerY] [] champX = 3933 / 4000 := by
    rw [PSB_adj, PSB, LD, EPW, hrs, hapw]
    norm_num [calculateExpectedPlayoffWins, calculateActualPlayoffWins, champX]
  have hbase : baseScore [champX, runnerY] [] 12 champX =
      JSN.num (16517403 / 20000000) := by
    rw [baseScore, hera, hrss, hwcr, hsos, hapw, hpsb]
    norm_num
  have hraw : sdsPlusRaw [champX, runnerY] [] 12 champX =
      JSN.num (1899501345 / 20000000) := by
    rw [sdsPlusRaw, hbase, hci]
    norm_num [championMultiplier, champX]
  have hmem : sdsEntry [champX, runnerY] [] 12 champX ∈
      (([champX, runnerY].map (sdsEntry [champX, runnerY] [] 12)).mergeSort scoreLe) := by
    rw [List.mem_mergeSort]
    exact List.mem_map_of_mem _ (List.mem_cons_self _ _)
  obtain ⟨e, he, hee⟩ := assignRanksFrom_mem_of_mem (i := 0) hmem
  refine ⟨e, he, ?_, ?_, ?_⟩
  · rw [hee]; rfl
  · rw [hee]
    show (sdsEntry [champX, runnerY] [] 12 champX).score = JSN.num 95
    simp only [sdsEntry, jsRoundTo, hraw, JSN.mul_num_num, JSN.round_num]
    rw [JSN.div_num_num_of_ne _ (by norm_num)]
    rw [show ⌊(1899501345 / 20000000 : ℝ) * 10 + 1 / 2⌋ = 950 by
      rw [Int.floor_eq_iff]
      norm_num]
    norm_num
  · rw [hee]
    show (sdsEntry [champX, runnerY] [] 12 champX).interpretation =
      "Dominant, likely robbed by variance"
    simp only [sdsEntry, interpretationOf, hraw, JSN.geB_num_num]
    rw [if_neg (by norm_num), if_pos (by norm_num)]

noncomputable instance : DecidableEq JSN := fun _ _ => Classical.dec _

/-- Erase the output-only `rank` field (which the per-team callback
initializes to 0 and the final sort overwrites). -/
def stripRank (e : SDSPlusScore) : SDSPlusScore := { e with rank := 0 }

theorem stripRank_eq_self {e : SDSPlusScore} (h : e.rank = 0) : stripRank e = e := by
  cases e
  simp_all [stripRank]

theorem stripRank_sdsEntry (standings : List YahooStanding)
    (weeklyScores : List WeeklyScore) (regularSeasonWeeks : ℚ)
    (team : YahooStanding) :
    stripRank (sdsEntry standings weeklyScores regularSeasonWeeks team) =
      sdsEntry standings weeklyScores regularSeasonWeeks team :=
  stripRank_eq_self rfl

theorem map_stripRank_assignRanksFrom (i : ℕ) (l : List SDSPlusScore) :
    (assignRanksFrom i l).map stripRank = l.map stripRank := by
  induction l generalizing i with
  | nil => rfl
  | cons s rest ih => simp [assignRanksFrom, ih, stripRank]

/-- Totally ordered sort key of an output entry: its score read in the
extended reals, with NaN mapped (arbitrarily) to bottom.  On NaN-free
entries the comparator of the final sort agrees with this key order. -/
noncomputable def scoreKey (e : SDSPlusScore) : EReal :=
  match e.score with
  | JSN.num x => (x : EReal)
  | JSN.inf => ⊤
  | JSN.ninf => ⊥
  | JSN.nan => ⊥

noncomputable def scoreKeyLe (a b : SDSPlusScore) : Bool :=
  decide (scoreKey b ≤ scoreKey a)

theorem scoreKeyLe_trans (a b c : SDSPlusScore)
    (hab : scoreKeyLe a b) (hbc : scoreKeyLe b c) : scoreKeyLe a c := by
  simp only [scoreKeyLe, decide_eq_true_eq] at hab hbc ⊢
  exact le_trans hbc hab

theorem scoreKeyLe_total (a b : SDSPlusScore) :
    scoreKeyLe a b || scoreKeyLe b a := by
  simp only [scoreKeyLe, Bool.or_eq_true, decide_eq_true_eq]
  exact le_total (scoreKey b) (scoreKey a)

theorem scoreLe_eq_scoreKeyLe {a b : SDSPlusScore}
    (ha : a.score ≠ JSN.nan) (hb : b.score ≠ JSN.nan) :
    scoreLe a b = scoreKeyLe a b := by
  rcases hsa : a.score with x | _ | _ <;> rcases hsb : b.score with y | _ | _ <;>
    simp_all [scoreLe, scoreKeyLe, scoreKey, JSN.sub, JSN.ltB, hsa, hsb]
  by_cases h : y ≤ x
  · simp [h, sub_pos, not_lt.mpr h]
  · simp [h, sub_pos, not_le.mp h]

section Finiteness

variable {standings : List YahooStanding} {weeklyScores : List WeeklyScore}
  {regularSeasonWeeks : ℚ}

theorem leagueAvgPoints_eq (hN : standings.length ≠ 0) :
    leagueAvgPoints standings =
      JSN.num ((((standings.map (fun t => t.points_for)).sum : ℚ) : ℝ) /
        (standings.length : ℝ)) := by
  rw [leagueAvgPoints, JSN.div_num_num_of_ne]
  exact Nat.cast_ne_zero.mpr hN

theorem leagueAvgPoints_val_pos (hN : standings.length ≠ 0)
    (hpf : 0 < (standings.map (fun t => t.points_for)).sum) :
    0 < (((standings.map (fun t => t.points_for)).sum : ℚ) : ℝ) /
      (standings.length : ℝ) := by
  apply div_pos
  · exact_mod_cast hpf
  · exact_mod_cast Nat.pos_of_ne_zero hN

theorem PFI_num (hN : standings.length ≠ 0)
    (hpf : 0 < (standings.map (fun t => t.points_for)).sum)
    (t : YahooStanding) : ∃ x : ℝ, PFI standings t = JSN.num x :=
  ⟨_, by
    rw [PFI, leagueAvgPoints_eq hN,
      JSN.div_num_num_of_ne _ (ne_of_gt (leagueAvgPoints_val_pos hN hpf))]⟩

theorem nSubOne_ne_zero (hN2 : 2 ≤ standings.length) :
    ((standings.length : ℝ)) - 1 ≠ 0 := by
  have : (2 : ℝ) ≤ (standings.length : ℝ) := by exact_mod_cast hN2
  linarith

theorem PF_pct_num (hN2 : 2 ≤ standings.length) (t : YahooStanding) :
    ∃ x : ℝ, PF_pct standings t = JSN.num x :=
  ⟨_, by
    rw [PF_pct, JSN.div_num_num_of_ne _ (nSubOne_ne_zero hN2), JSN.sub_num_num]⟩

theorem RSS_num (hN2 : 2 ≤ standings.length) (t : YahooStanding) :
    ∃ x : ℝ, RSS standings t = JSN.num x :=
  ⟨_, by
    rw [RSS, JSN.div_num_num_of_ne _ (nSubOne_ne_zero hN2), JSN.sub_num_num]⟩

theorem weeklyHigh_num (t : YahooStanding) (hgp : 0 < gamesPlayed t) :
    ∃ x : ℝ, weeklyHigh weeklyScores t = JSN.num x := by
  rw [weeklyHigh]
  by_cases hts : 0 < (teamWeeklyPoints weeklyScores t).length
  · rw [if_pos hts]
    exact ⟨_, rfl⟩
  · rw [if_neg hts,
      JSN.div_num_num_of_ne _ (by exact_mod_cast Nat.pos_iff_ne_zero.mp hgp),
      JSN.mul_num_num]
    exact ⟨_, rfl⟩

theorem WCR_num (hN2 : 2 ≤ standings.length)
    (hpf : 0 < (standings.map (fun t => t.points_for)).sum)
    (t : YahooStanding) (hgp : 0 < gamesPlayed t) :
    ∃ x : ℝ, WCR standings weeklyScores regularSeasonWeeks t = JSN.num x := by
  have hN : standings.length ≠ 0 := by omega
  obtain ⟨h, hwh⟩ := @weeklyHigh_num weeklyScores t hgp
  rw [WCR]
  by_cases hb : 0 < weeklyScores.length ∧ 0 < standings.length
  · rw [leagueAvgWeeklyScore, if_pos hb, hwh]
    by_cases hq : (0 : ℝ) <
        (((weeklyScores.map (fun w => w.points)).sum / (weeklyScores.length : ℚ) : ℚ) : ℝ)
    · rw [if_pos (by simp only [JSN.ltB_num_num, decide_eq_true_eq]; exact hq)]
      rw [JSN.div_num_num_of_ne _ (ne_of_gt hq)]
      exact ⟨_, rfl⟩
    · rw [if_neg (by simp only [JSN.ltB_num_num, decide_eq_true_eq]; exact hq)]
      exact ⟨_, rfl⟩
  · rw [leagueAvgWeeklyScore, if_neg hb, leagueAvgPoints_eq hN]
    set L := (((standings.map (fun t => t.points_for)).sum : ℚ) : ℝ) /
      (standings.length : ℝ) with hL
    have hLpos : 0 < L := leagueAvgPoints_val_pos hN hpf
    by_cases hw : ((regularSeasonWeeks : ℝ)) = 0
    · rw [show JSN.num ((regularSeasonWeeks : ℝ)) = JSN.num 0 by rw [hw]]
      rw [JSN.div_num_zero_of_pos hLpos, hwh]
      rw [if_pos (by simp [JSN.ltB_num_inf])]
      exact ⟨0, JSN.div_num_inf h⟩
    · rw [JSN.div_num_num_of_ne _ hw, hwh]
      by_cases hq : (0 : ℝ) < L / (regularSeasonWeeks : ℝ)
      · rw [if_pos (by simp only [JSN.ltB_num_num, decide_eq_true_eq]; exact hq)]
        rw [JSN.div_num_num_of_ne _ (ne_of_gt hq)]
        exact ⟨_, rfl⟩
      · rw [if_neg (by simp only [JSN.ltB_num_num, decide_eq_true_eq]; exact hq)]
        exact ⟨_, rfl⟩

theorem sdsEntry_score_num (hN2 : 2 ≤ standings.length)
    (hpf : 0 < (standings.map (fun t => t.points_for)).sum)
    {t : YahooStanding} (hgp : 0 < gamesPlayed t) :
    ∃ x : ℝ,
      (sdsEntry standings weeklyScores regularSeasonWeeks t).score = JSN.num x := by
  have hN : standings.length ≠ 0 := by omega
  obtain ⟨a, ha⟩ := PFI_num hN hpf t
  obtain ⟨b, hb⟩ := PF_pct_num hN2 t
  obtain ⟨c, hc⟩ := RSS_num hN2 t
  obtain ⟨d, hd⟩ :=
    @WCR_num standings weeklyScores regularSeasonWeeks hN2 hpf t hgp
  have hera : PFI_era standings t = JSN.num (0.5 * a + 0.5 * b) := by
    rw [PFI_era, ha, hb, JSN.mul_num_num, JSN.mul_num_num, JSN.add_num_num]
  have hbase : ∃ x : ℝ,
      baseScore standings weeklyScores regularSeasonWeeks t = JSN.num x :=
    ⟨_, by
      rw [baseScore, hera, hc, hd, JSN.mul_num_num, JSN.mul_num_num, JSN.mul_num_num,
        JSN.add_num_num, JSN.add_num_num, JSN.add_num_num, JSN.mul_num_num,
        JSN.add_num_num]⟩
  obtain ⟨r, hr⟩ := hbase
  have hraw : ∃ x : ℝ,
      sdsPlusRaw standings weeklyScores regularSeasonWeeks t = JSN.num x :=
    ⟨_, by
      rw [sdsPlusRaw, hr, JSN.mul_num_num, JSN.mul_num_num, JSN.mul_num_num]⟩
  obtain ⟨s, hs⟩ := hraw
  refine ⟨((⌊s * 10 + 1 / 2⌋ : ℤ) : ℝ) / 10, ?_⟩
  show jsRoundTo 10 (sdsPlusRaw standings weeklyScores regularSeasonWeeks t) = _
  rw [jsRoundTo, hs, JSN.mul_num_num, JSN.round_num,
    JSN.div_num_num_of_ne _ (by norm_num : (10 : ℝ) ≠ 0)]

end Finiteness

theorem get_assignRanksFrom_zero (L : List SDSPlusScore) (i : ℕ)
    (hi : i < (assignRanksFrom 0 L).length) (hi' : i < L.length) :
    (assignRanksFrom 0 L).get ⟨i, hi⟩ = { L.get ⟨i, hi'⟩ with rank := i + 1 } := by
  rw [List.get_eq_getElem, List.get_eq_getElem,
    getElem_assignRanksFrom 0 L i hi hi', Nat.zero_add]

/-- C1: for standings with a valid 1..N rank permutation, every team having
played a game, N ≥ 2, and positive total league points (the rendering of the
claim's premise "so all scores are finite": under these hypotheses every
computed score is proved to be a finite real), `calculateSDSPlus` returns
exactly N entries; their `rank` fields are 1..N in positional order; up to
the rank field the output is a permutation of the per-team entries; the
output is sorted by score descending; and for every score value the tied
entries appear in original input order (the stable-sort tie-break). -/
theorem C1_output_is_ranked_stable_descending
    (standings : List YahooStanding) (weeklyScores : List WeeklyScore)
    (regularSeasonWeeks : ℚ)
    (hN2 : 2 ≤ standings.length)
    (hperm : (standings.map (fun t => t.rank)).Perm (List.range' 1 standings.length))
    (hgp : ∀ t ∈ standings, 0 < gamesPlayed t)
    (hpf : 0 < (standings.map (fun t => t.points_for)).sum) :
    (calculateSDSPlus standings weeklyScores regularSeasonWeeks).length =
        standings.length ∧
    (∀ i (hi : i < (calculateSDSPlus standings weeklyScores regularSeasonWeeks).length),
      ((calculateSDSPlus standings weeklyScores regularSeasonWeeks).get ⟨i, hi⟩).rank =
        i + 1) ∧
    ((calculateSDSPlus standings weeklyScores regularSeasonWeeks).map stripRank).Perm
      (standings.map (sdsEntry standings weeklyScores regularSeasonWeeks)) ∧
    (∀ i j (hi : i < (calculateSDSPlus standings weeklyScores regularSeasonWeeks).length)
      (hj : j < (calculateSDSPlus standings weeklyScores regularSeasonWeeks).length),
      i ≤ j →
      ∃ x y : ℝ,
        ((calculateSDSPlus standings weeklyScores regularSeasonWeeks).get ⟨i, hi⟩).score =
          JSN.num x ∧
        ((calculateSDSPlus standings weeklyScores regularSeasonWeeks).get ⟨j, hj⟩).score =
          JSN.num y ∧ y ≤ x) ∧
    (∀ v : JSN,
      ((calculateSDSPlus standings weeklyScores regularSeasonWeeks).map stripRank).filter
          (fun e => decide (e.score = v)) =
        (standings.map (sdsEntry standings weeklyScores regularSeasonWeeks)).filter
          (fun e => decide (e.score = v))) := by
  clear hperm
  set l := standings.map (sdsEntry standings weeklyScores regularSeasonWeeks) with hl
  have hfin : ∀ e ∈ l, ∃ x : ℝ, e.score = JSN.num x := by
    intro e he
    rw [hl] at he
    obtain ⟨t, ht, rfl⟩ := List.mem_map.mp he
    exact sdsEntry_score_num hN2 hpf (hgp t ht)
  have hagree : ∀ a ∈ l, ∀ b ∈ l, scoreLe a b = scoreKeyLe a b := by
    intro a ha b hb
    obtain ⟨x, hx⟩ := hfin a ha
    obtain ⟨y, hy⟩ := hfin b hb
    exact scoreLe_eq_scoreKeyLe (by rw [hx]; simp) (by rw [hy]; simp)
  have hsorteq : l.mergeSort scoreLe = l.mergeSort scoreKeyLe := by
    have hmap := List.map_mergeSort (r := scoreLe) (s := scoreKeyLe) (f := id)
      (l := l) (fun a ha b hb => by simpa using hagree a ha b hb)
    simpa using hmap
  have hpermsort : (l.mergeSort scoreLe).Perm l := List.mergeSort_perm l scoreLe
  have hsorted : (l.mergeSort scoreLe).Pairwise (fun a b => scoreKeyLe a b) := by
    rw [hsorteq]
    exact List.sorted_mergeSort scoreKeyLe_trans scoreKeyLe_total l
  have hout : calculateSDSPlus standings weeklyScores regularSeasonWeeks =
      assignRanksFrom 0 (l.mergeSort scoreLe) := rfl
  have hlen : (calculateSDSPlus standings weeklyScores regularSeasonWeeks).length =
      standings.length := by
    rw [hout, length_assignRanksFrom, List.length_mergeSort, hl, List.length_map]
  have hstripsort : (l.mergeSort scoreLe).map stripRank = l.mergeSort scoreLe := by
    have hid : (l.mergeSort scoreLe).map stripRank = (l.mergeSort scoreLe).map id := by
      apply List.map_congr_left
      intro e he
      rw [List.mem_mergeSort, hl] at he
      obtain ⟨t, _, rfl⟩ := List.mem_map.mp he
      exact stripRank_sdsEntry _ _ _ _
    rw [hid, List.map_id]
  have hmapstrip :
      (calculateSDSPlus standings weeklyScores regularSeasonWeeks).map stripRank =
        l.mergeSort scoreLe := by
    rw [hout, map_stripRank_assignRanksFrom, hstripsort]
  refine ⟨hlen, ?_, ?_, ?_, ?_⟩
  · intro i hi
    have hi' : i < (l.mergeSort scoreLe).length := by
      rw [List.length_mergeSort]
      rw [hlen] at hi
      rw [hl, List.length_map]
      exact hi
    show ((assignRanksFrom 0 (l.mergeSort scoreLe)).get ⟨i, hi⟩).rank = i + 1
    rw [get_assignRanksFrom_zero _ _ _ hi']
  · rw [hmapstrip]
    exact hpermsort
  · intro i j hi hj hij
    have hi' : i < (l.mergeSort scoreLe).length := by
      rw [List.length_mergeSort]
      rw [hlen] at hi
      rw [hl, List.length_map]
      exact hi
    have hj' : j < (l.mergeSort scoreLe).length := by
      rw [List.length_mergeSort]
      rw [hlen] at hj
      rw [hl, List.length_map]
      exact hj
    have hgeti :
        ((calculateSDSPlus standings weeklyScores regularSeasonWeeks).get ⟨i, hi⟩).score =
          ((l.mergeSort scoreLe).get ⟨i, hi'⟩).score := by
      show (((assignRanksFrom 0 (l.mergeSort scoreLe)).get ⟨i, hi⟩)).score = _
      rw [get_assignRanksFrom_zero _ _ _ hi']
    have hgetj :
        ((calculateSDSPlus standings weeklyScores regularSeasonWeeks).get ⟨j, hj⟩).score =
          ((l.mergeSort scoreLe).get ⟨j, hj'⟩).score := by
      show (((assignRanksFrom 0 (l.mergeSort scoreLe)).get ⟨j, hj⟩)).score = _
      rw [get_assignRanksFrom_zero _ _ _ hj']
    obtain ⟨x, hx⟩ := hfin ((l.mergeSort scoreLe).get ⟨i, hi'⟩)
      (List.mem_mergeSort.mp (by rw [List.get_eq_getElem]; exact List.getElem_mem hi'))
    obtain ⟨y, hy⟩ := hfin ((l.mergeSort scoreLe).get ⟨j, hj'⟩)
      (List.mem_mergeSort.mp (by rw [List.get_eq_getElem]; exact List.getElem_mem hj'))
    refine ⟨x, y, by rw [hgeti, hx], by rw [hgetj, hy], ?_⟩
    rcases Nat.lt_or_ge i j with hlt | hge
    · have hkey := List.pairwise_iff_getElem.mp hsorted i j hi' hj' hlt
      simp only [List.get_eq_getElem, Fin.val_mk] at hx hy
      simp only [scoreKeyLe, decide_eq_true_eq, scoreKey, hx, hy] at hkey
      exact_mod_cast hkey
    · have : i = j := le_antisymm hij hge
      subst this
      rw [hx] at hy
      cases hy
      rfl
  · intro v
    set p : SDSPlusScore → Bool := fun e => decide (e.score = v) with hp
    have hcpair : (l.filter p).Pairwise (fun a b => scoreKeyLe a b) := by
      apply List.pairwise_of_forall_mem_list
      intro a ha b hb
      have ha' : a.score = v := by
        have := List.of_mem_filter ha
        rwa [hp, decide_eq_true_eq] at this
      have hb' : b.score = v := by
        have := List.of_mem_filter hb
        rwa [hp, decide_eq_true_eq] at this
      simp only [scoreKeyLe, decide_eq_true_eq, scoreKey, ha', hb']
      exact le_refl _
    have hsub2 : List.Sublist (l.filter p) (l.mergeSort scoreLe) := by
      rw [hsorteq]
      exact List.sublist_mergeSort scoreKeyLe_trans scoreKeyLe_total hcpair
        (List.filter_sublist l)
    have hfiltc : (l.filter p).filter p = l.filter p := by
      apply List.filter_eq_self.mpr
      intro a ha
      exact List.of_mem_filter ha
    have hsub3 : List.Sublist (l.filter p) ((l.mergeSort scoreLe).filter p) := by
      rw [← hfiltc]
      exact List.Sublist.filter p hsub2
    have hlenf : ((l.mergeSort scoreLe).filter p).length = (l.filter p).length :=
      (hpermsort.filter p).length_eq
    have hfinal : (l.mergeSort scoreLe).filter p = l.filter p :=
      (hsub3.eq_of_length hlenf.symm).symm
    rw [hmapstrip, hfinal, hl]

/-- C1 witness input, team 1. -/
def c1TeamA : YahooStanding := ⟨"a", "A", none, 1, 100, 0, 5, 5, 0⟩

/-- C1 witness input, team 2. -/
def c1TeamB : YahooStanding := ⟨"b", "B", none, 2, 50, 0, 5, 5, 0⟩

/-- C1 witness: the hypotheses hold at a concrete two-team input and the
theorem applies there. -/
theorem C1_output_is_ranked_stable_descending_witness :
    ((2 ≤ ([c1TeamA, c1TeamB] : List YahooStanding).length) ∧
      (([c1TeamA, c1TeamB].map (fun t => t.rank)).Perm
        (List.range' 1 [c1TeamA, c1TeamB].length)) ∧
      (∀ t ∈ [c1TeamA, c1TeamB], 0 < gamesPlayed t) ∧
      (0 < ([c1TeamA, c1TeamB].map (fun t => t.points_for)).sum)) ∧
    ((calculateSDSPlus [c1TeamA, c1TeamB] [] 14).length =
        ([c1TeamA, c1TeamB] : List YahooStanding).length ∧
      (∀ i (hi : i < (calculateSDSPlus [c1TeamA, c1TeamB] [] 14).length),
        ((calculateSDSPlus [c1TeamA, c1TeamB] [] 14).get ⟨i, hi⟩).rank = i + 1) ∧
      ((calculateSDSPlus [c1TeamA, c1TeamB] [] 14).map stripRank).Perm
        ([c1TeamA, c1TeamB].map (sdsEntry [c1TeamA, c1TeamB] [] 14)) ∧
      (∀ i j (hi : i < (calculateSDSPlus [c1TeamA, c1TeamB] [] 14).length)
        (hj : j < (calculateSDSPlus [c1TeamA, c1TeamB] [] 14).length),
        i ≤ j →
        ∃ x y : ℝ,
          ((calculateSDSPlus [c1TeamA, c1TeamB] [] 14).get ⟨i, hi⟩).score = JSN.num x ∧
          ((calculateSDSPlus [c1TeamA, c1TeamB] [] 14).get ⟨j, hj⟩).score = JSN.num y ∧
          y ≤ x) ∧
      (∀ v : JSN,
        ((calculateSDSPlus [c1TeamA, c1TeamB] [] 14).map stripRank).filter
            (fun e => decide (e.score = v)) =
          ([c1TeamA, c1TeamB].map (sdsEntry [c1TeamA, c1TeamB] [] 14)).filter
            (fun e => decide (e.score = v)))) :=
  ⟨⟨by decide, by decide, by decide, by norm_num [c1TeamA, c1TeamB]⟩,
   C1_output_is_ranked_stable_descending [c1TeamA, c1TeamB] [] 14
     (by decide) (by decide) (by decide) (by norm_num [c1TeamA, c1TeamB])⟩

/-- Erase the `rank` field of a standings record ("all other inputs fixed"
means equality of standings up to ranks). -/
def stripTeamRank (t : YahooStanding) : YahooStanding := { t with rank := 0 }

/-- C2 counterexample input: team a with final rank 1, zero points. -/
def c2ZeroA1 : YahooStanding := ⟨"a", "A", none, 1, 0, 0, 1, 0, 0⟩

/-- C2 counterexample input: team b with final rank 2, zero points. -/
def c2ZeroA2 : YahooStanding := ⟨"b", "B", none, 2, 0, 0, 0, 1, 0⟩

/-- C2 counterexample input: team a with final rank 2, zero points. -/
def c2ZeroB1 : YahooStanding := ⟨"a", "A", none, 2, 0, 0, 1, 0, 0⟩

/-- C2 counterexample input: team b with final rank 1, zero points. -/
def c2ZeroB2 : YahooStanding := ⟨"b", "B", none, 1, 0, 0, 0, 1, 0⟩

/-- C2 counterexample: with non-negative (all-zero) points, identical stats
and valid rank assignments, the claim's conclusion fails: the league
average is 0, `PFI = 0/0 = NaN`, both scores are NaN, and NaN is not
strictly higher than NaN, so a team's score with `finalRank = 1` is not
strictly higher than with `finalRank = 2`. -/
theorem C2_counterexample_all_zero_points :
    ([c2ZeroA1, c2ZeroA2].map stripTeamRank = [c2ZeroB1, c2ZeroB2].map stripTeamRank) ∧
    (([c2ZeroA1, c2ZeroA2].map (fun t => t.rank)).Perm
      (List.range' 1 [c2ZeroA1, c2ZeroA2].length)) ∧
    (([c2ZeroB1, c2ZeroB2].map (fun t => t.rank)).Perm
      (List.range' 1 [c2ZeroB1, c2ZeroB2].length)) ∧
    (∀ t ∈ [c2ZeroA1, c2ZeroA2], 0 ≤ t.points_for) ∧
    c2ZeroA1.rank = 1 ∧ c2ZeroB1.rank = 2 ∧
    (sdsEntry [c2ZeroA1, c2ZeroA2] [] 14 c2ZeroA1).score = JSN.nan ∧
    (sdsEntry [c2ZeroB1, c2ZeroB2] [] 14 c2ZeroB1).score = JSN.nan ∧
    JSN.ltB (sdsEntry [c2ZeroB1, c2ZeroB2] [] 14 c2ZeroB1).score
      (sdsEntry [c2ZeroA1, c2ZeroA2] [] 14 c2ZeroA1).score = false := by
  have hscore : ∀ (s : List YahooStanding) (t : YahooStanding),
      leagueAvgPoints s = JSN.num 0 → t.points_for = 0 →
      (sdsEntry s [] 14 t).score = JSN.nan := by
    intro s t hlap hpf
    have hPFI : PFI s t = JSN.nan := by
      rw [PFI, hlap, hpf]
      norm_num [JSN.div_zero_zero]
    have hera : PFI_era s t = JSN.nan := by simp [PFI_era, hPFI]
    have hbase : baseScore s [] 14 t = JSN.nan := by simp [baseScore, hera]
    have hraw : sdsPlusRaw s [] 14 t = JSN.nan := by simp [sdsPlusRaw, hbase]
    show jsRoundTo 10 (sdsPlusRaw s [] 14 t) = JSN.nan
    simp [jsRoundTo, hraw]
  have hlapA : leagueAvgPoints [c2ZeroA1, c2ZeroA2] = JSN.num 0 := by
    rw [leagueAvgPoints]
    norm_num [c2ZeroA1, c2ZeroA2, JSN.div_num_num_of_ne]
  have hlapB : leagueAvgPoints [c2ZeroB1, c2ZeroB2] = JSN.num 0 := by
    rw [leagueAvgPoints]
    norm_num [c2ZeroB1, c2ZeroB2, JSN.div_num_num_of_ne]
  have hA := hscore [c2ZeroA1, c2ZeroA2] c2ZeroA1 hlapA rfl
  have hB := hscore [c2ZeroB1, c2ZeroB2] c2ZeroB1 hlapB rfl
  refine ⟨by decide, by decide, by decide, by decide, rfl, rfl, hA, hB, ?_⟩
  rw [hA, hB]
  rfl

section C2Congruence

variable {A B : List YahooStanding} {ws : List WeeklyScore}

theorem strip_map_length (h : A.map stripTeamRank = B.map stripTeamRank) :
    A.length = B.length := by
  have h1 := congrArg List.length h
  simpa using h1

theorem strip_map_proj {γ : Type} (f : YahooStanding → γ)
    (hf : ∀ t, f (stripTeamRank t) = f t)
    (h : A.map stripTeamRank = B.map stripTeamRank) :
    A.map f = B.map f := by
  have h1 := congrArg (List.map f) h
  rw [List.map_map, List.map_map] at h1
  calc A.map f = A.map (f ∘ stripTeamRank) := by
        apply List.map_congr_left
        intro t _
        exact (hf t).symm
    _ = B.map (f ∘ stripTeamRank) := h1
    _ = B.map f := by
        apply List.map_congr_left
        intro t _
        exact hf t

theorem leagueAvgPoints_congr (h : A.map stripTeamRank = B.map stripTeamRank) :
    leagueAvgPoints A = leagueAvgPoints B := by
  rw [leagueAvgPoints, leagueAvgPoints,
    strip_map_proj (fun t => t.points_for) (fun t => rfl) h, strip_map_length h]

theorem rankIn_map_strip (l : List YahooStanding) (key : String) :
    rankIn (l.map stripTeamRank) key = rankIn l key := by
  rw [rankIn, rankIn, List.findIdx?_map]
  rfl

theorem sortedByPoints_strip (h : A.map stripTeamRank = B.map stripTeamRank) :
    (sortedByPoints A).map stripTeamRank = (sortedByPoints B).map stripTeamRank := by
  have hA := List.map_mergeSort (r := ptsLe) (s := ptsLe) (f := stripTeamRank)
    (l := A) (fun a _ b _ => rfl)
  have hB := List.map_mergeSort (r := ptsLe) (s := ptsLe) (f := stripTeamRank)
    (l := B) (fun a _ b _ => rfl)
  rw [sortedByPoints, sortedByPoints, hA, hB, h]

theorem sortedByRegularSeason_strip (h : A.map stripTeamRank = B.map stripTeamRank) :
    (sortedByRegularSeason A).map stripTeamRank =
      (sortedByRegularSeason B).map stripTeamRank := by
  have hA := List.map_mergeSort (r := regSeasonLe) (s := regSeasonLe) (f := stripTeamRank)
    (l := A) (fun a _ b _ => rfl)
  have hB := List.map_mergeSort (r := regSeasonLe) (s := regSeasonLe) (f := stripTeamRank)
    (l := B) (fun a _ b _ => rfl)
  rw [sortedByRegularSeason, sortedByRegularSeason, hA, hB, h]

theorem pointsRank_congr (h : A.map stripTeamRank = B.map stripTeamRank)
    {tA tB : YahooStanding} (hk : tA.team_key = tB.team_key) :
    pointsRank A tA = pointsRank B tB := by
  rw [pointsRank, pointsRank, hk, ← rankIn_map_strip (sortedByPoints A),
    ← rankIn_map_strip (sortedByPoints B), sortedByPoints_strip h]

theorem regularSeasonRank_congr (h : A.map stripTeamRank = B.map stripTeamRank)
    {tA tB : YahooStanding} (hk : tA.team_key = tB.team_key) :
    regularSeasonRank A tA = regularSeasonRank B tB := by
  rw [regularSeasonRank, regularSeasonRank, hk,
    ← rankIn_map_strip (sortedByRegularSeason A),
    ← rankIn_map_strip (sortedByRegularSeason B), sortedByRegularSeason_strip h]

theorem find?_key_strip (h : A.map stripTeamRank = B.map stripTeamRank) (k : String) :
    (A.find? (fun t => t.team_key == k)).map stripTeamRank =
      (B.find? (fun t => t.team_key == k)).map stripTeamRank := by
  have hA := List.find?_map (p := fun t => t.team_key == k) stripTeamRank A
  have hB := List.find?_map (p := fun t => t.team_key == k) stripTeamRank B
  have hpA : ((fun t => t.team_key == k) ∘ stripTeamRank) =
      (fun t : YahooStanding => t.team_key == k) := funext fun t => rfl
  rw [hpA] at hA hB
  rw [← hA, ← hB, h]

theorem allPlayWinPcts_congr (h : A.map stripTeamRank = B.map stripTeamRank) :
    allPlayWinPcts A ws = allPlayWinPcts B ws := by
  have hkeys := strip_map_proj (fun t => t.team_key) (fun t => rfl) h
  by_cases hws : 0 < ws.length
  · simp only [allPlayWinPcts, if_pos hws, hkeys]
  · simp only [allPlayWinPcts, if_neg hws, hkeys]
    have hstep : (fun (m : List (String × ℚ)) (k : String) =>
        match A.find? (fun t => t.team_key == k) with
        | none => m
        | some team =>
            jsMapSet m k (min 0.95
              ((if 0 < gamesPlayed team then (team.wins : ℚ) / (gamesPlayed team : ℚ)
                else 1 / 2) * 1.1))) =
        (fun (m : List (String × ℚ)) (k : String) =>
        match B.find? (fun t => t.team_key == k) with
        | none => m
        | some team =>
            jsMapSet m k (min 0.95
              ((if 0 < gamesPlayed team then (team.wins : ℚ) / (gamesPlayed team : ℚ)
                else 1 / 2) * 1.1))) := by
      funext m k
      have hf := find?_key_strip h k
      cases hfa : A.find? (fun t => t.team_key == k) with
      | none =>
          cases hfb : B.find? (fun t => t.team_key == k) with
          | none => rfl
          | some tb => rw [hfa, hfb] at hf; simp at hf
      | some ta =>
          cases hfb : B.find? (fun t => t.team_key == k) with
          | none => rw [hfa, hfb] at hf; simp at hf
          | some tb =>
              rw [hfa, hfb] at hf
              have hst : stripTeamRank ta = stripTeamRank tb := Option.some.inj hf
              have hw : ta.wins = tb.wins := by
                simpa [stripTeamRank] using
                  congrArg (fun t : YahooStanding => t.wins) hst
              have hgp : gamesPlayed ta = gamesPlayed tb := by
                have hl : ta.losses = tb.losses := by
                  simpa [stripTeamRank] using
                    congrArg (fun t : YahooStanding => t.losses) hst
                have ht : ta.ties = tb.ties := by
                  simpa [stripTeamRank] using
                    congrArg (fun t : YahooStanding => t.ties) hst
                rw [gamesPlayed, gamesPlayed, hw, hl, ht]
              simp only [hw, hgp]
    rw [hstep]

end C2Congruence

section Bounds

theorem pairFold_le (l : List (ℕ × ℕ)) (acc : ℕ × ℕ) (hacc : acc.1 ≤ acc.2)
    (hl : ∀ p ∈ l, p.1 ≤ p.2) :
    (l.foldl (fun a b => (a.1 + b.1, a.2 + b.2)) acc).1 ≤
      (l.foldl (fun a b => (a.1 + b.1, a.2 + b.2)) acc).2 := by
  induction l generalizing acc with
  | nil => simpa using hacc
  | cons p rest ih =>
      simp only [List.foldl_cons]
      exact ih _ (Nat.add_le_add hacc (hl p (List.mem_cons_self _ _)))
        (fun q hq => hl q (List.mem_cons_of_mem _ hq))

theorem allPlayStep_le (wsc : List (String × ℚ)) (tk : String) (p : ℚ) (ok : String) :
    (allPlayStep wsc tk p ok).1 ≤ (allPlayStep wsc tk p ok).2 := by
  rw [allPlayStep]
  by_cases h : (ok == tk) = true
  · rw [if_pos h]
  · rw [if_neg h]
    show (if (jsMapGet wsc ok).getD 0 < p then 1 else 0) ≤ 1
    split_ifs <;> norm_num

theorem allPlayWeek_le (sbw : List (ℕ × List (String × ℚ))) (keys : List String)
    (tk : String) (tw : WeeklyScore) :
    (allPlayWeek sbw keys tk tw).1 ≤ (allPlayWeek sbw keys tk tw).2 := by
  rw [allPlayWeek]
  cases h : jsMapGet sbw tw.week with
  | none => exact le_refl 0
  | some wsc =>
      apply pairFold_le _ _ (le_refl 0)
      intro p hp
      obtain ⟨ok, _, rfl⟩ := List.mem_map.mp hp
      exact allPlayStep_le _ _ _ _

theorem calculateAllPlayWinPercentage_bounds (tk : String)
    (ws : List WeeklyScore) (keys : List String) :
    0 ≤ calculateAllPlayWinPercentage tk ws keys ∧
      calculateAllPlayWinPercentage tk ws keys ≤ 1 := by
  rw [calculateAllPlayWinPercentage]
  by_cases hte : (ws.filter (fun w => w.team_key == tk)).isEmpty
  · simp only [hte, if_true]
    norm_num
  · rw [Bool.not_eq_true] at hte
    simp only [hte, Bool.false_eq_true, if_false]
    set T := ((ws.filter (fun w => w.team_key == tk)).map
      (allPlayWeek (scoresByWeek ws) keys tk)).foldl
      (fun a b => (a.1 + b.1, a.2 + b.2)) ((0, 0) : ℕ × ℕ) with hT
    have hle : T.1 ≤ T.2 := by
      rw [hT]
      apply pairFold_le _ _ (le_refl 0)
      intro p hp
      obtain ⟨tw, _, rfl⟩ := List.mem_map.mp hp
      exact allPlayWeek_le _ _ _ _
    by_cases hpos : 0 < T.2
    · rw [if_pos hpos]
      constructor
      · positivity
      · rw [div_le_one (by exact_mod_cast hpos)]
        exact_mod_cast hle
    · rw [if_neg hpos]
      norm_num

theorem jsMapSet_mem {κ α : Type} [BEq κ] {m : List (κ × α)} {k : κ} {v : α} :
    ∀ p ∈ jsMapSet m k v, p ∈ m ∨ p = (k, v) := by
  intro p hp
  rw [jsMapSet] at hp
  split at hp
  · obtain ⟨q, hq, hpq⟩ := List.mem_map.mp hp
    by_cases hqk : (q.1 == k) = true
    · rw [if_pos hqk] at hpq
      exact Or.inr hpq.symm
    · rw [if_neg hqk] at hpq
      exact Or.inl (hpq ▸ hq)
  · rcases List.mem_append.mp hp with h | h
    · exact Or.inl h
    · rw [List.mem_singleton] at h
      exact Or.inr h

theorem jsMapGet_eq_some_mem {κ α : Type} [BEq κ] {m : List (κ × α)} {k : κ}
    {v : α} (h : jsMapGet m k = some v) : ∃ p ∈ m, p.2 = v := by
  rw [jsMapGet] at h
  cases hf : m.find? (fun p => p.1 == k) with
  | none => rw [hf] at h; simp at h
  | some p =>
      rw [hf] at h
      exact ⟨p, List.mem_of_find?_eq_some hf, by simpa using h⟩

theorem foldl_preserve {β : Type} (P : List (String × ℚ) → Prop)
    (f : List (String × ℚ) → β → List (String × ℚ))
    (hf : ∀ m b, P m → P (f m b)) :
    ∀ (l : List β) (m : List (String × ℚ)), P m → P (l.foldl f m) := by
  intro l
  induction l with
  | nil => intro m hm; exact hm
  | cons b rest ih => intro m hm; exact ih _ (hf m b hm)

theorem allPlayWinPcts_values (standings : List YahooStanding)
    (ws : List WeeklyScore) :
    ∀ p ∈ allPlayWinPcts standings ws, 0 ≤ p.2 ∧ p.2 ≤ 1 := by
  rw [allPlayWinPcts]
  split
  · refine foldl_preserve (fun m => ∀ p ∈ m, 0 ≤ p.2 ∧ p.2 ≤ 1) _ ?_ _ [] ?_
    · intro m k hm p hp
      rcases jsMapSet_mem p hp with h | h
      · exact hm p h
      · rw [h]
        exact calculateAllPlayWinPercentage_bounds k ws _
    · intro p hp
      simp at hp
  · refine foldl_preserve (fun m => ∀ p ∈ m, 0 ≤ p.2 ∧ p.2 ≤ 1) _ ?_ _ [] ?_
    · intro m k hm p hp
      cases hfind : standings.find? (fun t => t.team_key == k) with
      | none =>
          simp only [hfind] at hp
          exact hm p hp
      | some team =>
          simp only [hfind] at hp
          rcases jsMapSet_mem p hp with h | h
          · exact hm p h
          · rw [h]
            constructor
            · apply le_min (by norm_num)
              apply mul_nonneg _ (by norm_num)
              split_ifs with hgp
              · positivity
              · norm_num
            · exact le_trans (min_le_left _ _) (by norm_num)
    · intro p hp
      simp at hp

theorem APW_bounds (standings : List YahooStanding) (ws : List WeeklyScore)
    (t : YahooStanding) :
    0 ≤ APW standings ws t ∧ APW standings ws t ≤ 1 := by
  rw [APW]
  cases hg : jsMapGet (allPlayWinPcts standings ws) t.team_key with
  | none => norm_num
  | some v =>
      by_cases hv : v = 0
      · simp only [hv, if_pos rfl]
        norm_num
      · simp only [if_neg hv]
        obtain ⟨p, hp, hpv⟩ := jsMapGet_eq_some_mem hg
        have hb := allPlayWinPcts_values standings ws p hp
        rw [hpv] at hb
        exact hb

theorem avgList_bounds (l : List ℚ) (hl : ∀ x ∈ l, 0 ≤ x ∧ x ≤ 1)
    (hlen : 0 < l.length) : 0 ≤ l.sum / (l.length : ℚ) ∧ l.sum / (l.length : ℚ) ≤ 1 := by
  have hlen' : (0 : ℚ) < (l.length : ℚ) := by exact_mod_cast hlen
  constructor
  · apply div_nonneg _ (le_of_lt hlen')
    exact List.sum_nonneg (fun x hx => (hl x hx).1)
  · rw [div_le_one hlen']
    have := List.sum_le_card_nsmul l 1 (fun x hx => (hl x hx).2)
    simpa using this

theorem leagueAvgAPW_bounds (m : List (String × ℚ))
    (hm : ∀ p ∈ m, 0 ≤ p.2 ∧ p.2 ≤ 1) :
    0 ≤ leagueAvgAPW m ∧ leagueAvgAPW m ≤ 1 := by
  simp only [leagueAvgAPW]
  by_cases hlen : 0 < (m.map (fun p => p.2)).length
  · rw [if_pos hlen]
    apply avgList_bounds
    · intro x hx
      obtain ⟨p, hp, rfl⟩ := List.mem_map.mp hx
      exact hm p hp
    · exact hlen
  · rw [if_neg hlen]
    norm_num

theorem calculateOpponentAPW_bounds (tk : String) (ws : List WeeklyScore)
    (keys : List String) (m : List (String × ℚ))
    (hm : ∀ p ∈ m, 0 ≤ p.2 ∧ p.2 ≤ 1) :
    0 ≤ calculateOpponentAPW tk ws keys m ∧ calculateOpponentAPW tk ws keys m ≤ 1 := by
  simp only [calculateOpponentAPW]
  by_cases hte : (ws.filter
      (fun w => w.team_key == tk && !(w.opponent_key.getD "" == ""))).isEmpty
  · rw [if_pos hte]
    exact leagueAvgAPW_bounds m hm
  · rw [if_neg hte]
    set oks := ((ws.filter
      (fun w => w.team_key == tk && !(w.opponent_key.getD "" == ""))).foldl
      (fun s w =>
        if w.opponent_key.getD "" == "" then s else jsSetAdd s (w.opponent_key.getD ""))
      []).filterMap (fun k => jsMapGet m k) with hoks
    by_cases hlen : 0 < oks.length
    · rw [if_pos hlen]
      apply avgList_bounds
      · intro x hx
        rw [hoks] at hx
        obtain ⟨k', _, hk'⟩ := List.mem_filterMap.mp hx
        obtain ⟨p, hp, hpv⟩ := jsMapGet_eq_some_mem hk'
        rw [← hpv]
        exact hm p hp
      · exact hlen
    · rw [if_neg hlen]
      exact leagueAvgAPW_bounds m hm

theorem SoS_bounds (standings : List YahooStanding) (ws : List WeeklyScore)
    (t : YahooStanding) :
    (1 / 2 : ℚ) ≤ SoS standings ws t ∧ SoS standings ws t ≤ 3 / 2 := by
  rw [SoS]
  have hb := calculateOpponentAPW_bounds t.team_key ws
    (standings.map (fun t => t.team_key)) (allPlayWinPcts standings ws)
    (allPlayWinPcts_values standings ws)
  constructor <;> nlinarith [hb.1, hb.2]

theorem CI_bounds (standings : List YahooStanding) (ws : List WeeklyScore)
    (t : YahooStanding) :
    (-1 : ℝ) ≤ CI standings ws t ∧ CI standings ws t ≤ 1 := by
  rw [CI]
  split_ifs
  · constructor
    · exact le_max_left _ _
    · apply max_le (by norm_num)
      exact min_le_left _ _
  · norm_num
  · norm_num

theorem EPW_bound (standings : List YahooStanding) (ws : List WeeklyScore)
    (t : YahooStanding) : (1 / 2 : ℚ) ≤ EPW standings ws t := by
  have hb := APW_bounds standings ws t
  rw [EPW, calculateExpectedPlayoffWins]
  split_ifs <;> nlinarith [hb.1]

theorem rankIn_le_length (l : List YahooStanding) (key : String) :
    rankIn l key ≤ l.length := by
  rw [rankIn]
  cases h : l.findIdx? (fun t => t.team_key == key) with
  | none => exact Nat.zero_le _
  | some i => exact (List.findIdx?_eq_some_iff_findIdx_eq.mp h).1

end Bounds

section C2Components

variable {A B standings : List YahooStanding} {ws : List WeeklyScore}
  {regularSeasonWeeks : ℚ}

theorem stripTeamRank_fields {a b : YahooStanding}
    (h : stripTeamRank a = stripTeamRank b) :
    a.team_key = b.team_key ∧ a.points_for = b.points_for ∧ a.wins = b.wins ∧
      a.losses = b.losses ∧ a.ties = b.ties := by
  cases a
  cases b
  simp_all [stripTeamRank]

theorem gamesPlayed_congr {tA tB : YahooStanding}
    (hst : stripTeamRank tA = stripTeamRank tB) :
    gamesPlayed tA = gamesPlayed tB := by
  obtain ⟨_, _, hw, hl, ht⟩ := stripTeamRank_fields hst
  rw [gamesPlayed, gamesPlayed, hw, hl, ht]

theorem PFI_congr (h : A.map stripTeamRank = B.map stripTeamRank)
    {tA tB : YahooStanding} (hst : stripTeamRank tA = stripTeamRank tB) :
    PFI A tA = PFI B tB := by
  obtain ⟨_, hpf, _⟩ := stripTeamRank_fields hst
  rw [PFI, PFI, hpf, leagueAvgPoints_congr h]

theorem PF_pct_congr (h : A.map stripTeamRank = B.map stripTeamRank)
    {tA tB : YahooStanding} (hst : stripTeamRank tA = stripTeamRank tB) :
    PF_pct A tA = PF_pct B tB := by
  obtain ⟨hk, _⟩ := stripTeamRank_fields hst
  rw [PF_pct, PF_pct, pointsRank_congr h hk, strip_map_length h]

theorem RSS_congr (h : A.map stripTeamRank = B.map stripTeamRank)
    {tA tB : YahooStanding} (hst : stripTeamRank tA = stripTeamRank tB) :
    RSS A tA = RSS B tB := by
  obtain ⟨hk, _⟩ := stripTeamRank_fields hst
  rw [RSS, RSS, regularSeasonRank_congr h hk, strip_map_length h]

theorem APW_congr (h : A.map stripTeamRank = B.map stripTeamRank)
    {tA tB : YahooStanding} (hst : stripTeamRank tA = stripTeamRank tB) :
    APW A ws tA = APW B ws tB := by
  obtain ⟨hk, _⟩ := stripTeamRank_fields hst
  rw [APW, APW, allPlayWinPcts_congr h, hk]

theorem SoS_congr (h : A.map stripTeamRank = B.map stripTeamRank)
    {tA tB : YahooStanding} (hst : stripTeamRank tA = stripTeamRank tB) :
    SoS A ws tA = SoS B ws tB := by
  obtain ⟨hk, _⟩ := stripTeamRank_fields hst
  rw [SoS, SoS, hk, allPlayWinPcts_congr h,
    strip_map_proj (fun t => t.team_key) (fun _ => rfl) h]

theorem leagueAvgStdDev_congr (h : A.map stripTeamRank = B.map stripTeamRank) :
    leagueAvgStdDev A ws = leagueAvgStdDev B ws := by
  rw [leagueAvgStdDev, leagueAvgStdDev,
    strip_map_proj (fun t => t.team_key) (fun _ => rfl) h]

theorem CI_congr (h : A.map stripTeamRank = B.map stripTeamRank)
    {tA tB : YahooStanding} (hst : stripTeamRank tA = stripTeamRank tB) :
    CI A ws tA = CI B ws tB := by
  obtain ⟨hk, _⟩ := stripTeamRank_fields hst
  rw [CI, CI, leagueAvgStdDev_congr h, hk]

theorem weeklyHigh_congr {tA tB : YahooStanding}
    (hst : stripTeamRank tA = stripTeamRank tB) :
    weeklyHigh ws tA = weeklyHigh ws tB := by
  obtain ⟨hk, hpf, _⟩ := stripTeamRank_fields hst
  rw [weeklyHigh, weeklyHigh, teamWeeklyPoints, teamWeeklyPoints, hk, hpf,
    gamesPlayed_congr hst]

theorem leagueAvgWeeklyScore_congr (h : A.map stripTeamRank = B.map stripTeamRank) :
    leagueAvgWeeklyScore A ws regularSeasonWeeks =
      leagueAvgWeeklyScore B ws regularSeasonWeeks := by
  rw [leagueAvgWeeklyScore, leagueAvgWeeklyScore, leagueAvgPoints_congr h,
    strip_map_length h]

theorem WCR_congr (h : A.map stripTeamRank = B.map stripTeamRank)
    {tA tB : YahooStanding} (hst : stripTeamRank tA = stripTeamRank tB) :
    WCR A ws regularSeasonWeeks tA = WCR B ws regularSeasonWeeks tB := by
  rw [WCR, WCR, leagueAvgWeeklyScore_congr h, weeklyHigh_congr hst]

theorem EPW_congr (h : A.map stripTeamRank = B.map stripTeamRank)
    {tA tB : YahooStanding} (hst : stripTeamRank tA = stripTeamRank tB) :
    EPW A ws tA = EPW B ws tB := by
  obtain ⟨hk, _⟩ := stripTeamRank_fields hst
  rw [EPW, EPW, regularSeasonRank_congr h hk, APW_congr h hst]

theorem le_foldl_max (x : ℚ) (l : List ℚ) : x ≤ l.foldl max x := by
  induction l generalizing x with
  | nil => exact le_refl x
  | cons y ys ih => exact le_trans (le_max_left x y) (ih (max x y))

theorem listMax_nonneg {l : List ℚ} (hne : l ≠ []) (hl : ∀ x ∈ l, 0 ≤ x) :
    0 ≤ listMax l := by
  cases l with
  | nil => simp at hne
  | cons x xs =>
      exact le_trans (hl x (List.mem_cons_self _ _)) (le_foldl_max x xs)

theorem PFI_num_nonneg (hN : standings.length ≠ 0)
    (hpf : 0 < (standings.map (fun t => t.points_for)).sum)
    {t : YahooStanding} (hpft : 0 ≤ t.points_for) :
    ∃ x : ℝ, PFI standings t = JSN.num x ∧ 0 ≤ x := by
  have hpos := leagueAvgPoints_val_pos hN hpf
  refine ⟨_, by rw [PFI, leagueAvgPoints_eq hN,
    JSN.div_num_num_of_ne _ (ne_of_gt hpos)], ?_⟩
  apply div_nonneg _ (le_of_lt hpos)
  exact_mod_cast hpft

theorem PF_pct_num_nonneg (hN2 : 2 ≤ standings.length) (t : YahooStanding) :
    ∃ x : ℝ, PF_pct standings t = JSN.num x ∧ 0 ≤ x := by
  refine ⟨_, by
    rw [PF_pct, JSN.div_num_num_of_ne _ (nSubOne_ne_zero hN2), JSN.sub_num_num], ?_⟩
  have hNpos : (0 : ℝ) < (standings.length : ℝ) - 1 := by
    have : (2 : ℝ) ≤ (standings.length : ℝ) := by exact_mod_cast hN2
    linarith
  have hle : pointsRank standings t ≤ standings.length := by
    rw [pointsRank]
    calc rankIn (sortedByPoints standings) t.team_key ≤
        (sortedByPoints standings).length := rankIn_le_length _ _
      _ = standings.length := by rw [sortedByPoints, List.length_mergeSort]
  have hler : ((pointsRank standings t : ℝ)) - 1 ≤ (standings.length : ℝ) - 1 := by
    have : ((pointsRank standings t : ℝ)) ≤ (standings.length : ℝ) := by
      exact_mod_cast hle
    linarith
  have := (div_le_one hNpos).mpr hler
  linarith

theorem RSS_num_nonneg (hN2 : 2 ≤ standings.length) (t : YahooStanding) :
    ∃ x : ℝ, RSS standings t = JSN.num x ∧ 0 ≤ x := by
  refine ⟨_, by
    rw [RSS, JSN.div_num_num_of_ne _ (nSubOne_ne_zero hN2), JSN.sub_num_num], ?_⟩
  have hNpos : (0 : ℝ) < (standings.length : ℝ) - 1 := by
    have : (2 : ℝ) ≤ (standings.length : ℝ) := by exact_mod_cast hN2
    linarith
  have hle : regularSeasonRank standings t ≤ standings.length := by
    rw [regularSeasonRank]
    calc rankIn (sortedByRegularSeason standings) t.team_key ≤
        (sortedByRegularSeason standings).length := rankIn_le_length _ _
      _ = standings.length := by rw [sortedByRegularSeason, List.length_mergeSort]
  have hler : ((regularSeasonRank standings t : ℝ)) - 1 ≤ (standings.length : ℝ) - 1 := by
    have : ((regularSeasonRank standings t : ℝ)) ≤ (standings.length : ℝ) := by
      exact_mod_cast hle
    linarith
  have := (div_le_one hNpos).mpr hler
  linarith

theorem weeklyHigh_num_nonneg {t : YahooStanding}
    (hwsp : ∀ w ∈ ws, 0 ≤ w.points) (hpft : 0 ≤ t.points_for)
    (hplay : 0 < gamesPlayed t ∨ 0 < (teamWeeklyPoints ws t).length) :
    ∃ x : ℝ, weeklyHigh ws t = JSN.num x ∧ 0 ≤ x := by
  rw [weeklyHigh]
  by_cases hts : 0 < (teamWeeklyPoints ws t).length
  · rw [if_pos hts]
    refine ⟨_, rfl, ?_⟩
    have hmem : ∀ x ∈ teamWeeklyPoints ws t, (0 : ℚ) ≤ x := by
      intro x hx
      rw [teamWeeklyPoints] at hx
      obtain ⟨w, hw, rfl⟩ := List.mem_map.mp hx
      exact hwsp w (List.mem_of_mem_filter hw)
    have h0 := listMax_nonneg (List.ne_nil_of_length_pos hts) hmem
    exact_mod_cast h0
  · rw [if_neg hts]
    have hgp : 0 < gamesPlayed t := hplay.resolve_right hts
    rw [JSN.div_num_num_of_ne _
      (by exact_mod_cast Nat.pos_iff_ne_zero.mp hgp : ((gamesPlayed t : ℝ)) ≠ 0),
      JSN.mul_num_num]
    refine ⟨_, rfl, ?_⟩
    have hpfr : (0 : ℝ) ≤ (t.points_for : ℝ) := by exact_mod_cast hpft
    apply mul_nonneg (div_nonneg hpfr (by positivity)) (by norm_num)

theorem WCR_num_nonneg (hN2 : 2 ≤ standings.length)
    (hpf : 0 < (standings.map (fun t => t.points_for)).sum)
    {t : YahooStanding} (hwsp : ∀ w ∈ ws, 0 ≤ w.points)
    (hpft : 0 ≤ t.points_for)
    (hplay : 0 < gamesPlayed t ∨ 0 < (teamWeeklyPoints ws t).length) :
    ∃ x : ℝ, WCR standings ws regularSeasonWeeks t = JSN.num x ∧ 0 ≤ x := by
  have hN : standings.length ≠ 0 := by omega
  obtain ⟨h, hwh, hh0⟩ := @weeklyHigh_num_nonneg ws t hwsp hpft hplay
  rw [WCR]
  by_cases hb : 0 < ws.length ∧ 0 < standings.length
  · rw [leagueAvgWeeklyScore, if_pos hb, hwh]
    by_cases hq : (0 : ℝ) <
        (((ws.map (fun w => w.points)).sum / (ws.length : ℚ) : ℚ) : ℝ)
    · rw [if_pos (by simp only [JSN.ltB_num_num, decide_eq_true_eq]; exact hq)]
      rw [JSN.div_num_num_of_ne _ (ne_of_gt hq)]
      exact ⟨_, rfl, div_nonneg hh0 (le_of_lt hq)⟩
    · rw [if_neg (by simp only [JSN.ltB_num_num, decide_eq_true_eq]; exact hq)]
      exact ⟨1, rfl, by norm_num⟩
  · rw [leagueAvgWeeklyScore, if_neg hb, leagueAvgPoints_eq hN]
    set L := (((standings.map (fun t => t.points_for)).sum : ℚ) : ℝ) /
      (standings.length : ℝ) with hL
    have hLpos : 0 < L := leagueAvgPoints_val_pos hN hpf
    by_cases hw : ((regularSeasonWeeks : ℝ)) = 0
    · rw [show JSN.num ((regularSeasonWeeks : ℝ)) = JSN.num 0 by rw [hw]]
      rw [JSN.div_num_zero_of_pos hLpos, hwh]
      rw [if_pos (by simp [JSN.ltB_num_inf])]
      exact ⟨0, JSN.div_num_inf h, le_refl 0⟩
    · rw [JSN.div_num_num_of_ne _ hw, hwh]
      by_cases hq : (0 : ℝ) < L / (regularSeasonWeeks : ℝ)
      · rw [if_pos (by simp only [JSN.ltB_num_num, decide_eq_true_eq]; exact hq)]
        rw [JSN.div_num_num_of_ne _ (ne_of_gt hq)]
        exact ⟨_, rfl, div_nonneg hh0 (le_of_lt hq)⟩
      · rw [if_neg (by simp only [JSN.ltB_num_num, decide_eq_true_eq]; exact hq)]
        exact ⟨1, rfl, by norm_num⟩

end C2Components

theorem sdsEntry_score_formula (standings : List YahooStanding)
    (ws : List WeeklyScore) (weeks : ℚ) (t : YahooStanding)
    {pfi pfp rss wcr : ℝ}
    (hpfi : PFI standings t = JSN.num pfi)
    (hpfp : PF_pct standings t = JSN.num pfp)
    (hrss : RSS standings t = JSN.num rss)
    (hwcr : WCR standings ws weeks t = JSN.num wcr) :
    (sdsEntry standings ws weeks t).score =
      JSN.num (((⌊(100 * ((0.3 * (0.5 * pfi + 0.5 * pfp) +
        ((0.25 * APW standings ws t : ℚ) : ℝ) + 0.15 * rss + 0.1 * wcr) *
        ((SoS standings ws t : ℚ) : ℝ) +
        ((0.2 * PSB_adj standings ws t : ℚ) : ℝ)) *
        (1 + 0.05 * CI standings ws t) *
        ((championMultiplier t : ℚ) : ℝ)) * 10 + 1 / 2⌋ : ℤ) : ℝ) / 10) := by
  show jsRoundTo 10 (sdsPlusRaw standings ws weeks t) = _
  rw [sdsPlusRaw, baseScore, PFI_era, hpfi, hpfp, hrss, hwcr]
  simp only [JSN.mul_num_num, JSN.add_num_num]
  rw [jsRoundTo, JSN.mul_num_num, JSN.round_num,
    JSN.div_num_num_of_ne _ (by norm_num : (10 : ℝ) ≠ 0)]

/-- Arithmetic core of the champion-bonus comparison: with base component sum
`S` nonnegative, expected playoff wins `e` at least one half, and consistency
factor `c` at least `0.95`, the rank-1 pre-floor quantity exceeds the rank-2
one by at least 70 (score gap at least 7 after the divide-by-ten). -/
theorem c2_score_gap (S e c : ℝ) (hS : 0 ≤ S) (he : 1 / 2 ≤ e)
    (hc : 0.95 ≤ c) :
    100 * (S + (0.13 + 0.01 * e)) * c * 1 * 10 + 1 / 2 + 70 ≤
      100 * (S + (0.18 + 0.01 * e)) * c * 1.15 * 10 + 1 / 2 := by
  have hu0 : (0 : ℝ) ≤ 150 * S + 1.5 * e + 77 := by linarith
  have h2 : 0.95 * (150 * S + 1.5 * e + 77) ≤ c * (150 * S + 1.5 * e + 77) :=
    mul_le_mul_of_nonneg_right hc hu0
  nlinarith [h2]

/-- A gap of at least 70 before flooring forces a strict inequality after
flooring and dividing by ten. -/
theorem c2_floor_div_lt (a b : ℝ) (h : a + 70 ≤ b) :
    ((⌊a⌋ : ℤ) : ℝ) / 10 < ((⌊b⌋ : ℤ) : ℝ) / 10 := by
  have h4 : ⌊a + ((70 : ℤ) : ℝ)⌋ ≤ ⌊b⌋ := Int.floor_le_floor (by push_cast; linarith)
  rw [Int.floor_add_int] at h4
  have h5 : ⌊a⌋ < ⌊b⌋ := by omega
  have h6 : ((⌊a⌋ : ℤ) : ℝ) < ((⌊b⌋ : ℤ) : ℝ) := by exact_mod_cast h5
  linarith


/-- C2 (amended): holding all non-rank inputs fixed (standings equal up to
rank fields, same weekly scores and week count), with non-negative points,
valid 1..N rank permutations on both sides, at least one team with positive
points, and the team having played a game or having weekly data (the
amendments forced by the all-zero-points counterexample), the team's output
score with `finalRank = 1` is strictly higher than with `finalRank = 2`. -/
theorem C2_champion_score_strictly_higher
    (A B : List YahooStanding) (ws : List WeeklyScore) (weeks : ℚ) (i : ℕ)
    (hiA : i < A.length) (hiB : i < B.length)
    (hstrip : A.map stripTeamRank = B.map stripTeamRank)
    (hpermA : (A.map (fun t => t.rank)).Perm (List.range' 1 A.length))
    (hpermB : (B.map (fun t => t.rank)).Perm (List.range' 1 B.length))
    (hrankA : (A.get ⟨i, hiA⟩).rank = 1)
    (hrankB : (B.get ⟨i, hiB⟩).rank = 2)
    (hpf_nonneg : ∀ t ∈ A, 0 ≤ t.points_for)
    (hws_nonneg : ∀ w ∈ ws, 0 ≤ w.points)
    (hpf_pos : 0 < (A.map (fun t => t.points_for)).sum)
    (hplay : 0 < gamesPlayed (A.get ⟨i, hiA⟩) ∨
      0 < (teamWeeklyPoints ws (A.get ⟨i, hiA⟩)).length) :
    ∃ x y : ℝ,
      (sdsEntry B ws weeks (B.get ⟨i, hiB⟩)).score = JSN.num y ∧
      (sdsEntry A ws weeks (A.get ⟨i, hiA⟩)).score = JSN.num x ∧ y < x := by
  clear hpermA
  set tA := A.get ⟨i, hiA⟩ with htA
  set tB := B.get ⟨i, hiB⟩ with htB
  have hst : stripTeamRank tA = stripTeamRank tB := by
    have h1 := congrArg (fun l : List YahooStanding => l[i]?) hstrip
    simp only [List.getElem?_map] at h1
    rw [List.getElem?_eq_getElem hiA, List.getElem?_eq_getElem hiB] at h1
    simp only [Option.map_some'] at h1
    have h2 := Option.some.inj h1
    rw [htA, htB, List.get_eq_getElem]
    exact h2
  have hN2B : 2 ≤ B.length := by
    have hmem : (2 : ℕ) ∈ B.map (fun t => t.rank) := by
      rw [List.mem_map]
      exact ⟨tB, by rw [htB, List.get_eq_getElem]; exact List.getElem_mem hiB, hrankB⟩
    have := hpermB.mem_iff.mp hmem
    rw [List.mem_range'] at this
    obtain ⟨j, hj, hj2⟩ := this
    omega
  have hN2A : 2 ≤ A.length := by rw [strip_map_length hstrip]; exact hN2B
  have hNA : A.length ≠ 0 := by omega
  have htAmem : tA ∈ A := by rw [htA, List.get_eq_getElem]; exact List.getElem_mem hiA
  obtain ⟨pfi, hpfi, hpfi0⟩ := PFI_num_nonneg hNA hpf_pos (hpf_nonneg tA htAmem)
  obtain ⟨pfp, hpfp, hpfp0⟩ := PF_pct_num_nonneg hN2A tA
  obtain ⟨rss, hrss, hrss0⟩ := RSS_num_nonneg hN2A tA
  obtain ⟨wcr, hwcr, hwcr0⟩ :=
    @WCR_num_nonneg A ws weeks hN2A hpf_pos tA
      hws_nonneg (hpf_nonneg tA htAmem) hplay
  have hpfiB : PFI B tB = JSN.num pfi := by rw [← PFI_congr hstrip hst]; exact hpfi
  have hpfpB : PF_pct B tB = JSN.num pfp := by
    rw [← PF_pct_congr hstrip hst]; exact hpfp
  have hrssB : RSS B tB = JSN.num rss := by rw [← RSS_congr hstrip hst]; exact hrss
  have hwcrB : WCR B ws weeks tB = JSN.num wcr := by
    rw [← WCR_congr hstrip hst]; exact hwcr
  have hfA := sdsEntry_score_formula A ws weeks tA hpfi hpfp hrss hwcr
  have hfB := sdsEntry_score_formula B ws weeks tB hpfiB hpfpB hrssB hwcrB
  rw [← APW_congr hstrip hst, ← SoS_congr hstrip hst, ← CI_congr hstrip hst] at hfB
  have hpadjB : PSB_adj B ws tB = 0.7 + 0.05 * (EPW A ws tA - 1) := by
    rw [PSB_adj, LD, ← EPW_congr hstrip hst]
    rw [show PSB tB = 0.7 by rw [PSB]; rw [hrankB]; norm_num]
    rw [show calculateActualPlayoffWins tB.rank = 1 by
      rw [hrankB, calculateActualPlayoffWins]; norm_num]
    push_cast
    ring
  have hpadjA : PSB_adj A ws tA = 1 + 0.05 * (EPW A ws tA - 2) := by
    rw [PSB_adj, LD]
    rw [show PSB tA = 1 by rw [PSB, if_pos hrankA]]
    rw [show calculateActualPlayoffWins tA.rank = 2 by
      rw [hrankA, calculateActualPlayoffWins]; norm_num]
    push_cast
    ring
  have hmultA : championMultiplier tA = 1.15 := by
    rw [championMultiplier, if_pos hrankA]
  have hmultB : championMultiplier tB = 1 := by
    rw [championMultiplier]; rw [hrankB]; norm_num
  rw [hpadjA, hmultA] at hfA
  rw [hpadjB, hmultB] at hfB
  set apw := APW A ws tA with h_apw
  set sos := SoS A ws tA with h_sos
  set ci := CI A ws tA with h_ci
  set E := EPW A ws tA with h_E
  have hapwb := APW_bounds A ws tA
  have hsosb := SoS_bounds A ws tA
  have hcib := CI_bounds A ws tA
  have hEb := EPW_bound A ws tA
  simp only [← h_apw, ← h_sos, ← h_ci, ← h_E] at hapwb hsosb hcib hEb
  have hapw0 : (0 : ℝ) ≤ (apw : ℝ) := by exact_mod_cast hapwb.1
  have hsos0 : (1 / 2 : ℝ) ≤ ((sos : ℚ) : ℝ) := by
    have h := Rat.cast_le (K := ℝ) |>.mpr hsosb.1
    push_cast at h
    linarith
  have hE0 : (1 / 2 : ℝ) ≤ ((E : ℚ) : ℝ) := by
    have h := Rat.cast_le (K := ℝ) |>.mpr hEb
    push_cast at h
    linarith
  have hc0 : (0.95 : ℝ) ≤ 1 + 0.05 * ci := by nlinarith [hcib.1]
  set S : ℝ := (0.3 * (0.5 * pfi + 0.5 * pfp) +
    ((0.25 * apw : ℚ) : ℝ) + 0.15 * rss + 0.1 * wcr) * ((sos : ℚ) : ℝ) with hS
  have hq1 : ((0.25 * apw : ℚ) : ℝ) = 0.25 * (apw : ℝ) := by push_cast; ring
  have hS0 : 0 ≤ S := by
    rw [hS]
    apply mul_nonneg _ (by linarith)
    rw [hq1]
    nlinarith
  set eR : ℝ := ((E : ℚ) : ℝ) with heR
  set c : ℝ := 1 + 0.05 * ci with hc
  have hpB : ((0.2 * (0.7 + 0.05 * (E - 1)) : ℚ) : ℝ) = 0.13 + 0.01 * eR := by
    rw [heR]; push_cast; ring
  have hpA : ((0.2 * (1 + 0.05 * (E - 2)) : ℚ) : ℝ) = 0.18 + 0.01 * eR := by
    rw [heR]; push_cast; ring
  have h115 : ((1.15 : ℚ) : ℝ) = 1.15 := by norm_num
  have h1 : ((1 : ℚ) : ℝ) = 1 := by norm_num
  rw [hpA, h115] at hfA
  rw [hpB, h1] at hfB
  exact ⟨_, _, hfB, hfA, c2_floor_div_lt _ _ (c2_score_gap S eR c hS0 hE0 hc0)⟩

/-- Concrete two-team league for the amended C2 witness: configuration `A`
has the focus team at rank 1. -/
def c2WitA1 : YahooStanding := ⟨"wa", "WA", none, 1, 100, 0, 5, 5, 0⟩

/-- Second team of configuration `A`, rank 2. -/
def c2WitA2 : YahooStanding := ⟨"wb", "WB", none, 2, 50, 0, 5, 5, 0⟩

/-- Configuration `B`: identical stats but the focus team at rank 2. -/
def c2WitB1 : YahooStanding := ⟨"wa", "WA", none, 2, 100, 0, 5, 5, 0⟩

/-- Second team of configuration `B`, rank 1. -/
def c2WitB2 : YahooStanding := ⟨"wb", "WB", none, 1, 50, 0, 5, 5, 0⟩

/-- Witness for the amended C2 theorem at a concrete two-team league with
positive points and played games: the focus team's score at final rank 1 is
strictly higher than at final rank 2. -/
theorem C2_champion_score_strictly_higher_witness :
    ([c2WitA1, c2WitA2].map stripTeamRank = [c2WitB1, c2WitB2].map stripTeamRank) ∧
    (([c2WitA1, c2WitA2].map (fun t => t.rank)).Perm
      (List.range' 1 [c2WitA1, c2WitA2].length)) ∧
    (0 < ([c2WitA1, c2WitA2].map (fun t => t.points_for)).sum) ∧
    (0 < gamesPlayed ([c2WitA1, c2WitA2].get ⟨0, by decide⟩)) ∧
    ∃ x y : ℝ,
      (sdsEntry [c2WitB1, c2WitB2] [] 14
        ([c2WitB1, c2WitB2].get ⟨0, by decide⟩)).score = JSN.num y ∧
      (sdsEntry [c2WitA1, c2WitA2] [] 14
        ([c2WitA1, c2WitA2].get ⟨0, by decide⟩)).score = JSN.num x ∧ y < x := by
  refine ⟨by decide, by decide, by norm_num [c2WitA1, c2WitA2], by decide, ?_⟩
  exact C2_champion_score_strictly_higher [c2WitA1, c2WitA2] [c2WitB1, c2WitB2]
    [] 14 0 (by decide) (by decide) (by decide) (by decide) (by decide)
    (by decide) (by decide) (by decide) (by decide)
    (by norm_num [c2WitA1, c2WitA2]) (Or.inl (by decide))
